import Mathlib

/-!
Verification of the availability/slot engine of the health-first-server
repository (services/providerAvailabilityService.py and
models/ProviderAvailability.py, models/provider_availability_store.py).

The embedding models:
  * calendar dates and proleptic-Gregorian day counts (the `datetime.date`
    arithmetic the code delegates to the Python standard library and
    `dateutil.rrule`),
  * HH:MM time strings, parsing (`map(int, s.split(':'))`) and formatting
    (`strftime("%H:%M")`),
  * timezone conversion (`pytz.timezone(...).localize` /
    `astimezone(pytz.UTC)`), where a timezone is modelled as a pair of
    offset functions: the offset chosen for a naive local date/time
    (localize, with pytz's default is_dst=False disambiguation) and the
    offset at a UTC instant (astimezone),
  * the in-memory store of availability windows and appointment slots,
  * the service operations: slot generation, recurrence expansion,
    conflict checking, create, update, delete and search.

UTC instants are integers counting minutes; calendar days are counted by
`toEpochDay` (days since 0001-01-01 in the proleptic Gregorian calendar).
The unique-id generator and the current-UTC-time source are injected
collaborators of the core (spec section 6) and are modelled as fields of
the context `Ctx`.
-/

namespace HF

/-! ### Calendar dates (model of `datetime.date` / Gregorian arithmetic) -/

/-- A calendar date, year/month/day. -/
structure Date where
  year : Nat
  month : Nat
  day : Nat
deriving DecidableEq, Repr

/-- Gregorian leap-year test. -/
def isLeap (y : Nat) : Bool := (y % 4 == 0 && y % 100 != 0) || (y % 400 == 0)

/-- 1 on leap years, 0 otherwise. -/
def leapOffset (y : Nat) : Nat := if isLeap y then 1 else 0

/-- Number of days in month `m` of year `y`. -/
def daysInMonth (y : Nat) : Nat → Nat
  | 2 => if isLeap y then 29 else 28
  | 4 => 30
  | 6 => 30
  | 9 => 30
  | 11 => 30
  | _ => 31

/-- Days in year `y` strictly before month `m` (months 1-12). -/
def daysBeforeMonth (y : Nat) : Nat → Nat
  | 2 => 31
  | 3 => 59 + leapOffset y
  | 4 => 90 + leapOffset y
  | 5 => 120 + leapOffset y
  | 6 => 151 + leapOffset y
  | 7 => 181 + leapOffset y
  | 8 => 212 + leapOffset y
  | 9 => 243 + leapOffset y
  | 10 => 273 + leapOffset y
  | 11 => 304 + leapOffset y
  | 12 => 334 + leapOffset y
  | _ => 0

/-- Days strictly before year `y` (counting from year 1). -/
def daysBeforeYear (y : Nat) : Nat :=
  365 * (y - 1) + (y - 1) / 4 + (y - 1) / 400 - (y - 1) / 100

/-- Day number of a date (0 for 0001-01-01), proleptic Gregorian. -/
def toEpochDay (d : Date) : Nat :=
  daysBeforeYear d.year + daysBeforeMonth d.year d.month + (d.day - 1)

/-- A well-formed calendar date. -/
def validDate (d : Date) : Prop :=
  1 ≤ d.year ∧ 1 ≤ d.month ∧ d.month ≤ 12 ∧ 1 ≤ d.day ∧ d.day ≤ daysInMonth d.year d.month

instance (d : Date) : Decidable (validDate d) := by
  unfold validDate; infer_instance

/-- The calendar successor of a date. -/
def nextDay (d : Date) : Date :=
  if d.day < daysInMonth d.year d.month then ⟨d.year, d.month, d.day + 1⟩
  else if d.month < 12 then ⟨d.year, d.month + 1, 1⟩
  else ⟨d.year + 1, 1, 1⟩

/-- Add `n` days to a date. -/
def addDays (d : Date) : Nat → Date
  | 0 => d
  | n + 1 => nextDay (addDays d n)

/-- Month index of a date: months since year 0, used for monthly recurrence. -/
def monthIdx (d : Date) : Nat := 12 * d.year + (d.month - 1)

/-- Epoch day of the first day of the month with month index `t`. -/
def monthStart (t : Nat) : Nat :=
  daysBeforeYear (t / 12) + daysBeforeMonth (t / 12) (t % 12 + 1)

/-! ### HH:MM time strings

`convert_to_utc` parses its time argument with
`hour, minute = map(int, local_time.split(':'))` and then builds
`time(hour, minute)` (which raises unless `0 ≤ hour < 24`,
`0 ≤ minute < 60`); any failure is caught and re-raised as `ValueError`.
`convert_from_utc` renders with `strftime("%H:%M")` (zero-padded).
Python compares time strings (`start_time >= end_time`, the pydantic
`end_time` validator) with code-point lexicographic string order. -/

/-- Split a character list at every `':'` (model of `str.split(':')`). -/
def splitOnColon : List Char → List (List Char)
  | [] => [[]]
  | c :: cs =>
    if c = ':' then [] :: splitOnColon cs
    else
      match splitOnColon cs with
      | [] => [[c]]
      | g :: gs => (c :: g) :: gs

/-- `c` is an ASCII digit. -/
def isDigitCh (c : Char) : Bool := 48 ≤ c.toNat && c.toNat ≤ 57

/-- Model of Python `int(...)` on a digit group: fails on an empty or
non-digit group. -/
def charsToNat (cs : List Char) : Option Nat :=
  if !cs.isEmpty && cs.all isDigitCh then
    some (cs.foldl (fun a c => a * 10 + (c.toNat - 48)) 0)
  else none

/-- Parse an `HH:MM` string the way `convert_to_utc` does: split on `':'`
into exactly two integer groups, then require a valid `time(hour, minute)`. -/
def parseHHMM (cs : List Char) : Option (Nat × Nat) :=
  match splitOnColon cs with
  | [hs, ms] =>
    match charsToNat hs, charsToNat ms with
    | some h, some m => if h < 24 && m < 60 then some (h, m) else none
    | _, _ => none
  | _ => none

/-- The ASCII digit character for `n ≤ 9`. -/
def digitChar : Nat → Char
  | 0 => '0'
  | 1 => '1'
  | 2 => '2'
  | 3 => '3'
  | 4 => '4'
  | 5 => '5'
  | 6 => '6'
  | 7 => '7'
  | 8 => '8'
  | _ => '9'

/-- Render a minute-of-day value as zero-padded `"HH:MM"`
(model of `strftime("%H:%M")`). -/
def formatHHMM (v : Nat) : String :=
  String.mk [digitChar (v / 60 / 10), digitChar (v / 60 % 10), ':',
             digitChar (v % 60 / 10), digitChar (v % 60 % 10)]

/-- Python's `<` on strings: code-point lexicographic order. -/
def lexLt : List Char → List Char → Bool
  | [], [] => false
  | [], _ :: _ => true
  | _ :: _, [] => false
  | a :: as, b :: bs => a.toNat < b.toNat || (a.toNat == b.toNat && lexLt as bs)

/-- Python string `<`. -/
def pyStrLt (a b : String) : Bool := lexLt a.data b.data

/-- Python string `<=`. -/
def pyStrLe (a b : String) : Bool := lexLt a.data b.data || a == b

/-- Hour group of the input pattern `([01]?[0-9]|2[0-3])`: one digit, or
`0`/`1` followed by a digit, or `2` followed by `0-3`. -/
def hourGroupOk : List Char → Bool
  | [c] => isDigitCh c
  | [a, b] => ((a == '0' || a == '1') && isDigitCh b) ||
              (a == '2' && (48 ≤ b.toNat && b.toNat ≤ 51))
  | _ => false

/-- Minute group of the input pattern `[0-5][0-9]`. -/
def minuteGroupOk : List Char → Bool
  | [c, d] => (48 ≤ c.toNat && c.toNat ≤ 53) && isDigitCh d
  | _ => false

/-- The pydantic input pattern `^([01]?[0-9]|2[0-3]):[0-5][0-9]$` used for
`start_time` / `end_time` (one colon, hour group, minute group). -/
def matchesTimeFormat (cs : List Char) : Bool :=
  match splitOnColon cs with
  | [hs, ms] => hourGroupOk hs && minuteGroupOk ms
  | _ => false

/-- The pydantic `validate_end_time` validator: raises iff `v <= start_time`
under Python string comparison, i.e. accepts iff `start_time < end_time`. -/
def validate_end_time_ok (start_time v : String) : Bool := !(pyStrLe v start_time)

/-! ### Timezones and conversion

`pytz` is modelled by two offset functions (minutes east of UTC):
`offFromLocal epochDay localMinute` is the offset `tz.localize` assigns to
the naive local datetime (pytz default `is_dst=False` disambiguation for
ambiguous/non-existent local times), and `offFromUtc u` is the offset in
force at the UTC instant `u` (used by `astimezone`).  A real zone without
DST has both functions constant; a DST zone's `offFromLocal` genuinely
depends on the date and local time, exactly as `tz.localize` does. -/

/-- A timezone: offsets in minutes east of UTC. -/
structure Timezone where
  offFromLocal : Int → Nat → Int
  offFromUtc : Int → Int

/-- Injected collaborators (spec section 6): the timezone database
(`pytz.timezone`, `none` for an unknown zone name), the current-UTC-time
source, and the unique-id generators used for slots and availabilities. -/
structure Ctx where
  tzdb : String → Option Timezone
  now : Int
  ids : Nat → String
  avIds : Nat → String

/-- `convert_to_utc(local_time, date_obj, timezone_str)`: parse the HH:MM
string, combine with the date, localize, convert to UTC minutes.
`none` models the raised `ValueError`. -/
def convert_to_utc (ctx : Ctx) (local_time : String) (epochDay : Int)
    (timezone_str : String) : Option Int :=
  match ctx.tzdb timezone_str with
  | none => none
  | some tz =>
    match parseHHMM local_time.data with
    | none => none
    | some (h, m) =>
      some (epochDay * 1440 + (h * 60 + m : Nat) - tz.offFromLocal epochDay (h * 60 + m))

/-- `convert_from_utc(utc_datetime, timezone_str)`: shift to the zone's
local time and render the minute-of-day as `"%H:%M"`. -/
def convert_from_utc (ctx : Ctx) (u : Int) (timezone_str : String) : Option String :=
  match ctx.tzdb timezone_str with
  | none => none
  | some tz => some (formatHHMM (((u + tz.offFromUtc u) % 1440).toNat))

/-! ### Data model (models/ProviderAvailability.py, provider_availability_store.py) -/

/-- `RecurrencePattern` enum. -/
inductive RecurrencePattern where
  | daily
  | weekly
  | monthly
deriving DecidableEq, Repr

/-- `.value` of a `RecurrencePattern`. -/
def RecurrencePattern.val : RecurrencePattern → String
  | .daily => "daily"
  | .weekly => "weekly"
  | .monthly => "monthly"

/-- `Pricing` model (`base_fee` is a non-negative float in the source;
modelled as a rational). -/
structure Pricing where
  base_fee : Rat
  insurance_accepted : Bool := true
  currency : String := "USD"
deriving DecidableEq, Repr

/-- `Location` model. -/
structure Location where
  locType : String
  address : Option String := none
  room_number : Option String := none
deriving DecidableEq, Repr

/-- `ProviderAvailabilityCreate` request model (enum-valued fields such as
status and appointment type are modelled by their `.value` strings). -/
structure ProviderAvailabilityCreate where
  provider_id : String
  date : Date
  start_time : String
  end_time : String
  timezone : String := "America/New_York"
  is_recurring : Bool := false
  recurrence_pattern : Option RecurrencePattern := none
  recurrence_end_date : Option Date := none
  slot_duration : Nat := 30
  break_duration : Nat := 0
  status : String := "available"
  max_appointments_per_slot : Nat := 1
  appointment_type : String := "consultation"
  location : Location
  pricing : Option Pricing := none
  notes : Option String := none
  special_requirements : List String := []
deriving DecidableEq, Repr

/-- `ProviderAvailabilityDB` stored record. -/
structure ProviderAvailabilityDB where
  id : String
  provider_id : String
  date : Date
  start_time : String
  end_time : String
  timezone : String
  is_recurring : Bool := false
  recurrence_pattern : Option RecurrencePattern := none
  recurrence_end_date : Option Date := none
  slot_duration : Nat := 30
  break_duration : Nat := 0
  status : String := "available"
  max_appointments_per_slot : Nat := 1
  current_appointments : Nat := 0
  appointment_type : String := "consultation"
  location : Location
  pricing : Option Pricing := none
  notes : Option String := none
  special_requirements : List String := []
  created_at : Int := 0
  updated_at : Int := 0
deriving DecidableEq, Repr

/-- An `AppointmentSlot` store record (a Python dict).  The final five
fields are dict keys that are absent (`none`) on freshly generated slots
and only ever written by `update_availability_slot`'s `update_data`
(`slot.update(...)` adds them as new keys). -/
structure SlotRec where
  id : String
  availability_id : String
  provider_id : String
  slot_start_time : Int
  slot_end_time : Int
  status : String := "available"
  patient_id : Option String := none
  appointment_type : String
  booking_reference : Option String := none
  created_at : Int := 0
  updated_at : Int := 0
  start_time : Option String := none
  end_time : Option String := none
  notes : Option String := none
  pricing : Option Pricing := none
  special_requirements : Option (List String) := none
deriving DecidableEq, Repr

/-- The in-memory store (`PROVIDER_AVAILABILITY`, `APPOINTMENT_SLOTS`). -/
structure Store where
  provider_availability : List ProviderAvailabilityDB
  appointment_slots : List SlotRec
deriving DecidableEq, Repr

/-- `ProviderAvailabilityUpdate` patch model; `none` = field absent. -/
structure ProviderAvailabilityUpdate where
  start_time : Option String := none
  end_time : Option String := none
  status : Option String := none
  notes : Option String := none
  pricing : Option Pricing := none
  special_requirements : Option (List String) := none
deriving DecidableEq, Repr

/-- `AvailabilitySearchRequest` model. -/
structure AvailabilitySearchRequest where
  date : Option Date := none
  start_date : Option Date := none
  end_date : Option Date := none
  specialization : Option String := none
  location : Option String := none
  appointment_type : Option String := none
  insurance_accepted : Option Bool := none
  max_price : Option Rat := none
  timezone : Option String := none
  available_only : Bool := true
deriving DecidableEq, Repr

/-- The structured result dict every service operation returns. -/
structure OpResult where
  success : Bool
  message : String
  status_code : Option Nat := none
  slots_created : Option Nat := none
  availability_id : Option String := none
  date_range : Option (Date × Date) := none
  total_appointments_available : Option Nat := none
deriving DecidableEq, Repr

/-- Python truthiness of an optional string (`None` and `""` are falsy). -/
def truthyStr : Option String → Bool
  | some s => !(s == "")
  | none => false

/-- Python truthiness of an optional list (`None` and `[]` are falsy). -/
def truthyList : Option (List String) → Bool
  | some l => !l.isEmpty
  | none => false

/-! ### Slot Generator (`generate_slots_from_availability`) -/

/-- Build one `AppointmentSlot` as the generator does (fresh id from the
injected generator, status available, no patient). -/
def mkSlot (ctx : Ctx) (av : ProviderAvailabilityDB) (k : Nat) (st en : Int) : SlotRec :=
  { id := ctx.ids k
    availability_id := av.id
    provider_id := av.provider_id
    slot_start_time := st
    slot_end_time := en
    status := "available"
    patient_id := none
    appointment_type := av.appointment_type
    booking_reference := none
    created_at := ctx.now
    updated_at := ctx.now }

/-- The generator's `while current_time < end_dt` loop.  `fuel` bounds the
iteration count (the Python loop terminates because `slot_duration ≥ 15`
in every validated window). -/
def slotLoop (ctx : Ctx) (av : ProviderAvailabilityDB) (e : Int) :
    Nat → Int → Nat → List SlotRec
  | 0, _, _ => []
  | fuel + 1, cur, k =>
    if cur < e then
      if e < cur + (av.slot_duration : Int) then []
      else mkSlot ctx av k cur (cur + (av.slot_duration : Int)) ::
        slotLoop ctx av e fuel
          (cur + (av.slot_duration : Int) + (av.break_duration : Int)) (k + 1)
    else []

/-- `generate_slots_from_availability(availability)`: convert the window's
start/end to UTC and cut fixed-duration slots, advancing by
`slot_duration + break_duration`; a slot whose end would pass the window
end is not emitted.  `none` models a raised conversion error. -/
def generate_slots_from_availability (ctx : Ctx) (av : ProviderAvailabilityDB) :
    Option (List SlotRec) :=
  match convert_to_utc ctx av.start_time (toEpochDay av.date) av.timezone,
        convert_to_utc ctx av.end_time (toEpochDay av.date) av.timezone with
  | some s, some e => some (slotLoop ctx av e ((e - s).toNat + 1) s 0)
  | _, _ => none

/-! ### Recurrence Expander (`generate_recurring_slots` / `dateutil.rrule`) -/

/-- `rrule(freq, dtstart, until)` for DAILY (`step = 1`) and WEEKLY
(`step = 7`): dates `dtstart + k*step` days for every `k` with the result
not after `until` (the until bound is inclusive). -/
def stepDates (step : Nat) (d0 u : Date) : List Date :=
  if toEpochDay d0 ≤ toEpochDay u then
    (List.range ((toEpochDay u - toEpochDay d0) / step + 1)).map
      (fun k => addDays d0 (k * step))
  else []

/-- The candidate date `k` months after `d0`, keeping `d0`'s day. -/
def monthCandidate (d0 : Date) (k : Nat) : Date :=
  ⟨(monthIdx d0 + k) / 12, (monthIdx d0 + k) % 12 + 1, d0.day⟩

/-- `rrule(MONTHLY, dtstart, until)`: the same day-of-month in each
successive month, skipping months that lack that day, up to and including
`until`. -/
def monthlyDates (d0 u : Date) : List Date :=
  if toEpochDay d0 ≤ toEpochDay u then
    (List.range (if monthIdx d0 ≤ monthIdx u then monthIdx u - monthIdx d0 + 1 else 0)).filterMap
      (fun k =>
        if (monthCandidate d0 k).day ≤
              daysInMonth (monthCandidate d0 k).year (monthCandidate d0 k).month ∧
            toEpochDay (monthCandidate d0 k) ≤ toEpochDay u
        then some (monthCandidate d0 k) else none)
  else []

/-- Occurrence dates of a recurrence rule. -/
def rruleDates : RecurrencePattern → Date → Date → List Date
  | .daily, d0, u => stepDates 1 d0 u
  | .weekly, d0, u => stepDates 7 d0 u
  | .monthly, d0, u => monthlyDates d0 u

/-- Build the `ProviderAvailabilityDB` stored for one occurrence (all
fields copied from the request, the occurrence date substituted). -/
def availabilityDBOfCreate (ctx : Ctx) (av : ProviderAvailabilityCreate)
    (d : Date) (theId : String) : ProviderAvailabilityDB :=
  { id := theId
    provider_id := av.provider_id
    date := d
    start_time := av.start_time
    end_time := av.end_time
    timezone := av.timezone
    is_recurring := av.is_recurring
    recurrence_pattern := av.recurrence_pattern
    recurrence_end_date := av.recurrence_end_date
    slot_duration := av.slot_duration
    break_duration := av.break_duration
    status := av.status
    max_appointments_per_slot := av.max_appointments_per_slot
    current_appointments := 0
    appointment_type := av.appointment_type
    location := av.location
    pricing := av.pricing
    notes := av.notes
    special_requirements := av.special_requirements
    created_at := ctx.now
    updated_at := ctx.now }

/-- One recurrence occurrence: the stored availability copy (occurrence
date substituted, fresh id) together with its generated slots; `none` when
slot generation raises. -/
def occF (ctx : Ctx) (av : ProviderAvailabilityCreate) (jd : Nat × Date) :
    Option (ProviderAvailabilityDB × List SlotRec) :=
  match generate_slots_from_availability ctx
      (availabilityDBOfCreate ctx av jd.2 (ctx.avIds jd.1)) with
  | some slots => some (availabilityDBOfCreate ctx av jd.2 (ctx.avIds jd.1), slots)
  | none => none

/-- `generate_recurring_slots(availability)`: returns `[]` unless the
window is recurring with a pattern and an end date; otherwise one
(availability copy, slot list) pair per occurrence date, in the order the
recurrence rule yields the dates. -/
def generate_recurring_slots (ctx : Ctx) (av : ProviderAvailabilityCreate) :
    Option (List (ProviderAvailabilityDB × List SlotRec)) :=
  if av.is_recurring then
    match av.recurrence_pattern, av.recurrence_end_date with
    | some pat, some ed =>
      (rruleDates pat av.date ed).enum.mapM (occF ctx av)
    | _, _ => some []
  else some []

/-! ### Conflict Checker (`check_slot_conflicts`) -/

/-- The `if exclude_slot_id and slot["id"] == exclude_slot_id` guard of the
scan loop (`exclude_slot_id` is truthy only when present and non-empty). -/
def skipCheck (exclude_slot_id : Option String) (slot : SlotRec) : Bool :=
  match exclude_slot_id with
  | some ex => !(ex == "") && slot.id == ex
  | none => false

/-- `check_slot_conflicts(provider_id, start_time, end_time, exclude_slot_id)`:
scan the provider's stored slots (skipping the excluded id when the
argument is truthy) and report a strict interval overlap
`start_time < slot_end and end_time > slot_start`.  Slot status is never
consulted. -/
def check_slot_conflicts (slots : List SlotRec) (provider_id : String)
    (start_time end_time : Int) (exclude_slot_id : Option String) : Bool :=
  (slots.filter (fun s => s.provider_id == provider_id)).any (fun slot =>
    if skipCheck exclude_slot_id slot then false
    else decide (start_time < slot.slot_end_time) && decide (end_time > slot.slot_start_time))

/-! ### Availability Service: Create (`create_provider_availability`) -/

/-- `create_provider_availability(request, availability)`.
Order of the code: the `start_time >= end_time` string check (400); for a
non-recurring window, UTC conversion of the bounds and the conflict
pre-check (409, store untouched); then storage.  Recurring windows skip
the pre-check entirely: every occurrence produced by
`generate_recurring_slots` is stored.  Any raised conversion error is
caught and reported as a generic 500.  In the non-recurring path
`add_provider_availability` runs before slot generation, so a generation
failure there would leave the availability stored (unreachable in
practice because the pre-check already converted the same bounds). -/
def create_provider_availability (ctx : Ctx) (store : Store)
    (availability : ProviderAvailabilityCreate) : OpResult × Store :=
  if !pyStrLt availability.start_time availability.end_time then
    ({ success := false, message := "End time must be after start time",
       status_code := some 400 }, store)
  else if !availability.is_recurring then
    match convert_to_utc ctx availability.start_time (toEpochDay availability.date)
            availability.timezone,
          convert_to_utc ctx availability.end_time (toEpochDay availability.date)
            availability.timezone with
    | some start_dt, some end_dt =>
      if check_slot_conflicts store.appointment_slots availability.provider_id
           start_dt end_dt none then
        ({ success := false, message := "Time slot conflicts with existing availability",
           status_code := some 409 }, store)
      else
        let availability_db := availabilityDBOfCreate ctx availability availability.date
          (ctx.avIds 0)
        match generate_slots_from_availability ctx availability_db with
        | none =>
          ({ success := false, message := "Failed to create availability slots",
             status_code := some 500 },
           { store with provider_availability :=
               store.provider_availability ++ [availability_db] })
        | some slots =>
          ({ success := true, message := "Availability slots created successfully",
             slots_created := some slots.length,
             availability_id := some availability_db.id,
             date_range := some (availability.date, availability.date),
             total_appointments_available :=
               some (slots.length * availability_db.max_appointments_per_slot) },
           { provider_availability := store.provider_availability ++ [availability_db],
             appointment_slots := store.appointment_slots ++ slots })
    | _, _ =>
      ({ success := false, message := "Failed to create availability slots",
         status_code := some 500 }, store)
  else
    match generate_recurring_slots ctx availability with
    | none =>
      ({ success := false, message := "Failed to create availability slots",
         status_code := some 500 }, store)
    | some results =>
      match availability.recurrence_end_date with
      | none =>
        -- the loop stored `results` (empty here, since the guard in
        -- generate_recurring_slots yielded []), then
        -- `recurrence_end_date.isoformat()` raised on None -> generic 500
        ({ success := false, message := "Failed to create availability slots",
           status_code := some 500 }, store)
      | some ed =>
        let slotsCreated := (results.map (fun pr => pr.2.length)).sum
        ({ success := true, message := "Availability slots created successfully",
           slots_created := some slotsCreated,
           availability_id := some "multiple",
           date_range := some (availability.date, ed),
           total_appointments_available :=
             some (slotsCreated * availability.max_appointments_per_slot) },
         { provider_availability :=
             store.provider_availability ++ results.map (fun pr => pr.1),
           appointment_slots :=
             store.appointment_slots ++ (results.map (fun pr => pr.2)).flatten })

/-! ### Store primitives (`update_appointment_slot`, `delete_appointment_slot`) -/

/-- `update_appointment_slot(slot_id, updates)`: apply `f` to the first
slot with the given id; `false` when no slot matches. -/
def update_appointment_slot (slots : List SlotRec) (slot_id : String)
    (f : SlotRec → SlotRec) : Bool × List SlotRec :=
  match slots with
  | [] => (false, [])
  | s :: rest =>
    if s.id == slot_id then (true, f s :: rest)
    else
      let r := update_appointment_slot rest slot_id f
      (r.1, s :: r.2)

/-- `delete_appointment_slot(slot_id)`: remove the first slot with the
given id; `false` when no slot matches. -/
def delete_appointment_slot (slots : List SlotRec) (slot_id : String) :
    Bool × List SlotRec :=
  match slots with
  | [] => (false, [])
  | s :: rest =>
    if s.id == slot_id then (true, rest)
    else
      let r := delete_appointment_slot rest slot_id
      (r.1, s :: r.2)

/-! ### Availability Service: UpdateSlot (`update_availability_slot`) -/

/-- The `update_data` dict applied to the stored slot dict: only truthy
patch fields are written, and the keys `start_time`/`end_time` are new
dict keys, distinct from the stored `slot_start_time`/`slot_end_time`. -/
def applyUpdateData (ctx : Ctx) (updates : ProviderAvailabilityUpdate)
    (s : SlotRec) : SlotRec :=
  { s with
    start_time := if truthyStr updates.start_time then updates.start_time else s.start_time
    end_time := if truthyStr updates.end_time then updates.end_time else s.end_time
    status := match updates.status with
              | some st => if st == "" then s.status else st
              | none => s.status
    notes := match updates.notes with
             | some nt => if nt == "" then s.notes else some nt
             | none => s.notes
    pricing := match updates.pricing with
               | some p => some p
               | none => s.pricing
    special_requirements := match updates.special_requirements with
                            | some l => if l.isEmpty then s.special_requirements else some l
                            | none => s.special_requirements
    updated_at := ctx.now }

/-- `update_availability_slot(slot_id, updates)`: 404 when the slot is
missing; when a (truthy) time field is patched, re-run the conflict check
excluding the slot itself (409 on overlap); then write the truthy patch
fields and refresh `updated_at`. -/
def update_availability_slot (ctx : Ctx) (store : Store) (slot_id : String)
    (updates : ProviderAvailabilityUpdate) : OpResult × Store :=
  match store.appointment_slots.find? (fun s => s.id == slot_id) with
  | none => ({ success := false, message := "Slot not found", status_code := some 404 }, store)
  | some slot =>
    let doWrite : OpResult × Store :=
      let r := update_appointment_slot store.appointment_slots slot_id
        (applyUpdateData ctx updates)
      if r.1 then
        ({ success := true, message := "Slot updated successfully" },
         { store with appointment_slots := r.2 })
      else
        ({ success := false, message := "Failed to update slot", status_code := some 500 },
         store)
    if truthyStr updates.start_time || truthyStr updates.end_time then
      let newStartStr : Option String :=
        if truthyStr updates.start_time then updates.start_time
        else convert_from_utc ctx slot.slot_start_time "UTC"
      let newEndStr : Option String :=
        if truthyStr updates.end_time then updates.end_time
        else convert_from_utc ctx slot.slot_end_time "UTC"
      match newStartStr, newEndStr with
      | some ns, some ne =>
        let slot_date := slot.slot_start_time.fdiv 1440
        match convert_to_utc ctx ns slot_date "UTC", convert_to_utc ctx ne slot_date "UTC" with
        | some new_start_dt, some new_end_dt =>
          if check_slot_conflicts store.appointment_slots slot.provider_id
               new_start_dt new_end_dt (some slot_id) then
            ({ success := false,
               message := "Updated time conflicts with existing availability",
               status_code := some 409 }, store)
          else doWrite
        | _, _ =>
          ({ success := false, message := "Failed to update slot", status_code := some 500 },
           store)
      | _, _ =>
        ({ success := false, message := "Failed to update slot", status_code := some 500 },
         store)
    else doWrite

/-! ### Availability Service: DeleteSlot (`delete_availability_slot`) -/

/-- `delete_availability_slot(slot_id, delete_recurring, reason)`: 404 when
missing; a slot whose status is "booked" is never deleted (400, store
untouched); otherwise delete it, and with `delete_recurring` also delete
every other non-booked slot sharing its availability id. -/
def delete_availability_slot (store : Store) (slot_id : String)
    (delete_recurring : Bool) (reason : Option String) : OpResult × Store :=
  match store.appointment_slots.find? (fun s => s.id == slot_id) with
  | none => ({ success := false, message := "Slot not found", status_code := some 404 }, store)
  | some slot =>
    if slot.status == "booked" then
      ({ success := false, message := "Cannot delete booked slot", status_code := some 400 },
       store)
    else
      let r := delete_appointment_slot store.appointment_slots slot_id
      if !r.1 then
        ({ success := false, message := "Failed to delete slot", status_code := some 500 },
         store)
      else
        let afterCascade :=
          if delete_recurring then
            (r.2.filter (fun rel => rel.availability_id == slot.availability_id)).foldl
              (fun acc rel =>
                if !(rel.id == slot_id) && !(rel.status == "booked") then
                  (delete_appointment_slot acc rel.id).2
                else acc)
              r.2
          else r.2
        ({ success := true, message := "Slot deleted successfully" },
         { store with appointment_slots := afterCascade })

/-! ### Availability Service: Search (`search_availability_slots`) -/

/-- The clinic address of the fabricated provider info used by the
location filter. -/
def fabricatedAddress : String := "123 Medical Center Dr, New York, NY"

/-- ASCII lower-casing (model of `str.lower()` on the data involved). -/
def pyLowerChar (c : Char) : Char :=
  if 65 ≤ c.toNat ∧ c.toNat ≤ 90 then Char.ofNat (c.toNat + 32) else c

/-- `needle` is a prefix of `hay`. -/
def chPre : List Char → List Char → Bool
  | [], _ => true
  | _ :: _, [] => false
  | a :: as, b :: bs => a == b && chPre as bs

/-- Python `needle in hay` on strings: contiguous substring test. -/
def chSub (needle : List Char) : List Char → Bool
  | [] => chPre needle []
  | c :: rest => chPre needle (c :: rest) || chSub needle rest

/-- `slot.get("pricing", {}).get("base_fee", 0)`. -/
def slotBaseFee (s : SlotRec) : Rat :=
  match s.pricing with
  | some p => p.base_fee
  | none => 0

/-- `slot.get("pricing", {}).get("insurance_accepted", True)`. -/
def slotInsurance (s : SlotRec) : Bool :=
  match s.pricing with
  | some p => p.insurance_accepted
  | none => true

/-- `slot["slot_start_time"].date()` as an epoch day (UTC calendar date). -/
def slotDateE (s : SlotRec) : Int := s.slot_start_time.fdiv 1440

/-- The filter chain of `search_availability_slots` (each `continue`
becomes a conjunct; Python truthiness makes an empty location string and a
zero max price skip their filters). -/
def passesSearch (req : AvailabilitySearchRequest) (slot : SlotRec) : Bool :=
  (!(req.available_only && !(slot.status == "available"))) &&
  (match req.date with
   | some d => slotDateE slot == (toEpochDay d : Int)
   | none => true) &&
  (match req.start_date with
   | some d => !(slotDateE slot < (toEpochDay d : Int))
   | none => true) &&
  (match req.end_date with
   | some d => !((toEpochDay d : Int) < slotDateE slot)
   | none => true) &&
  (match req.appointment_type with
   | some t => slot.appointment_type == t
   | none => true) &&
  (match req.location with
   | some loc =>
     if loc == "" then true
     else chSub (loc.data.map pyLowerChar) (fabricatedAddress.data.map pyLowerChar)
   | none => true) &&
  (match req.max_price with
   | some p => if p == 0 then true else !(p < slotBaseFee slot)
   | none => true) &&
  (match req.insurance_accepted with
   | some b => slotInsurance slot == b
   | none => true)

/-- Insert a surviving slot into the provider-grouped result (Python dict
insertion order: groups appear in first-occurrence order, slots within a
group in scan order). -/
def addToGroups (g : List (String × List SlotRec)) (s : SlotRec) :
    List (String × List SlotRec) :=
  if g.any (fun p => p.1 == s.provider_id) then
    g.map (fun p => if p.1 == s.provider_id then (p.1, p.2 ++ [s]) else p)
  else g ++ [(s.provider_id, [s])]

/-- `search_availability_slots(search_request)`: filter every stored slot
through the criteria chain and group the survivors by provider. -/
def search_availability_slots (store : Store) (req : AvailabilitySearchRequest) :
    List (String × List SlotRec) :=
  (store.appointment_slots.filter (passesSearch req)).foldl addToGroups []


/-! ### Concrete fixtures used by witnesses and counterexamples -/

/-- A zone with a constant UTC offset of -300 minutes (America/New_York in
winter, EST, no transition near the dates used). -/
def estTz : Timezone := ⟨fun _ _ => -300, fun _ => -300⟩

/-- UTC itself. -/
def utcTz : Timezone := ⟨fun _ _ => 0, fun _ => 0⟩

/-- Modelled from the pytz database: America/New_York around the
2024-03-10 spring-forward (02:00 EST jumps to 03:00 EDT).  `localize`
(is_dst=False) assigns EST (-300) to naive local times before 03:00 on
that date and EDT (-240) from 03:00 on; the UTC-side offset switches at
07:00 UTC. -/
def nyTz2024 : Timezone :=
  ⟨fun ed lm =>
      if ed < (toEpochDay ⟨2024, 3, 10⟩ : Int) then -300
      else if ed = (toEpochDay ⟨2024, 3, 10⟩ : Int) then (if lm < 180 then -300 else -240)
      else -240,
   fun u =>
      if u < (toEpochDay ⟨2024, 3, 10⟩ : Int) * 1440 + 420 then -300 else -240⟩

/-- Context with a winter-date timezone database and deterministic
injected id/time collaborators. -/
def fixedCtx : Ctx :=
  { tzdb := fun s =>
      if s = "America/New_York" then some estTz
      else if s = "UTC" then some utcTz
      else none
    now := 1064000000
    ids := fun k => "slot-gen-" ++ toString k
    avIds := fun k => "avail-gen-" ++ toString k }

/-- Context whose America/New_York has the real 2024 spring-forward. -/
def dstCtx : Ctx :=
  { fixedCtx with tzdb := fun s =>
      if s = "America/New_York" then some nyTz2024
      else if s = "UTC" then some utcTz
      else none }

/-- A clinic location. -/
def clinicLoc : Location := ⟨"clinic", some "123 Medical Center Dr, New York, NY 10001", none⟩

/-- The spec section 8 scenario window: 2024-02-15, 09:00-11:00 New York,
30-minute slots, no breaks. -/
def av0900 : ProviderAvailabilityDB :=
  { id := "availability-123"
    provider_id := "provider-123"
    date := ⟨2024, 2, 15⟩
    start_time := "09:00"
    end_time := "11:00"
    timezone := "America/New_York"
    slot_duration := 30
    break_duration := 0
    appointment_type := "consultation"
    location := clinicLoc }

/-- The four slots the generator produces for `av0900`
(09:00 EST = 14:00 UTC; epoch day 738930). -/
def slots0900 : List SlotRec :=
  [mkSlot fixedCtx av0900 0 1064060040 1064060070,
   mkSlot fixedCtx av0900 1 1064060070 1064060100,
   mkSlot fixedCtx av0900 2 1064060100 1064060130,
   mkSlot fixedCtx av0900 3 1064060130 1064060160]

/-- A window lying across the 2024-03-10 DST jump: 01:00-04:00 local is
only two hours of real time. -/
def dstAv : ProviderAvailabilityDB :=
  { av0900 with
    date := ⟨2024, 3, 10⟩
    start_time := "01:00"
    end_time := "04:00"
    slot_duration := 60 }

/-- A cancelled slot used to show status is never consulted. -/
def cancelledSlot : SlotRec :=
  { id := "slot-c1"
    availability_id := "availability-123"
    provider_id := "provider-123"
    slot_start_time := 100
    slot_end_time := 160
    status := "cancelled"
    appointment_type := "consultation" }

/-- A booked slot. -/
def bookedSlot : SlotRec :=
  { id := "slot-b1"
    availability_id := "availability-123"
    provider_id := "provider-123"
    slot_start_time := 200
    slot_end_time := 260
    status := "booked"
    appointment_type := "consultation" }

/-- A store holding a booked and a cancelled slot. -/
def storeB : Store :=
  { provider_availability := [], appointment_slots := [bookedSlot, cancelledSlot] }

/-- Search request: available only (default) with max price 100. -/
def searchReq100 : AvailabilitySearchRequest := { max_price := some 100 }

/-- An available slot priced below 100. -/
def slotCheap : SlotRec :=
  { id := "slot-s1"
    availability_id := "a1"
    provider_id := "p1"
    slot_start_time := 0
    slot_end_time := 30
    status := "available"
    appointment_type := "consultation"
    pricing := some { base_fee := 50 } }

/-- A store holding just the cheap available slot. -/
def storeS : Store := { provider_availability := [], appointment_slots := [slotCheap] }

/-- The stored state after creating `av0900`: the availability and its
four slots. -/
def store0900 : Store :=
  { provider_availability := [av0900], appointment_slots := slots0900 }

/-- A second, non-recurring window for the same provider covering
09:15-09:45 on the same day. -/
def av0915 : ProviderAvailabilityCreate :=
  { provider_id := "provider-123"
    date := ⟨2024, 2, 15⟩
    start_time := "09:15"
    end_time := "09:45"
    timezone := "America/New_York"
    location := clinicLoc }

/-- A slot whose stored UTC start is 14:00 (slot-123 shape). -/
def slotU : SlotRec :=
  { id := "slot-u1"
    availability_id := "a9"
    provider_id := "p9"
    slot_start_time := 1064060040
    slot_end_time := 1064060070
    status := "available"
    appointment_type := "consultation"
    created_at := 5
    updated_at := 5 }

/-- A store holding only `slotU`. -/
def storeU : Store := { provider_availability := [], appointment_slots := [slotU] }

/-- A patch that sets only `start_time` to "10:00". -/
def patch10 : ProviderAvailabilityUpdate := { start_time := some "10:00" }

/-- The weekly recurring create of the spec section 8 scenario. -/
def avWeekly : ProviderAvailabilityCreate :=
  { provider_id := "provider-123"
    date := ⟨2024, 2, 15⟩
    start_time := "09:00"
    end_time := "11:00"
    timezone := "America/New_York"
    is_recurring := true
    recurrence_pattern := some .weekly
    recurrence_end_date := some ⟨2024, 3, 1⟩
    location := clinicLoc }

/-- The occurrence list the Recurrence Expander produces for `avWeekly`. -/
def rsWeekly : List (ProviderAvailabilityDB × List SlotRec) :=
  (generate_recurring_slots fixedCtx avWeekly).getD []

/-! ## Theorems -/

/-! ### Calendar lemmas -/

theorem daysInMonth_ge (y m : Nat) : 28 ≤ daysInMonth y m := by
  unfold daysInMonth
  split
  · split <;> omega
  all_goals omega

theorem daysBeforeMonth_succ (y m : Nat) (h1 : 1 ≤ m) (h2 : m ≤ 11) :
    daysBeforeMonth y (m + 1) = daysBeforeMonth y m + daysInMonth y m := by
  interval_cases m <;> cases hL : isLeap y <;>
    simp [daysBeforeMonth, daysInMonth, leapOffset, hL]

theorem isLeap_iff (y : Nat) : isLeap y = true ↔ (y % 4 = 0 ∧ y % 100 ≠ 0) ∨ y % 400 = 0 := by
  unfold isLeap
  simp [Bool.or_eq_true, Bool.and_eq_true, beq_iff_eq, bne_iff_ne]

set_option maxHeartbeats 2000000 in
theorem daysBeforeYear_succ (y : Nat) (h : 1 ≤ y) :
    daysBeforeYear (y + 1) = daysBeforeYear y + 365 + leapOffset y := by
  unfold daysBeforeYear leapOffset
  split_ifs with hL
  · rw [isLeap_iff] at hL
    omega
  · rw [isLeap_iff] at hL
    omega

theorem monthStart_succ (t : Nat) (ht : 12 ≤ t) :
    monthStart (t + 1) = monthStart t + daysInMonth (t / 12) (t % 12 + 1) := by
  by_cases hr : t % 12 = 11
  · have h1 : (t + 1) / 12 = t / 12 + 1 := by omega
    have h2 : (t + 1) % 12 = 0 := by omega
    have hy : 1 ≤ t / 12 := by omega
    rw [monthStart, monthStart, h1, h2, hr, daysBeforeYear_succ _ hy]
    have hb1 : daysBeforeMonth (t / 12 + 1) (0 + 1) = 0 := rfl
    have hb12 : daysBeforeMonth (t / 12) (11 + 1) = 334 + leapOffset (t / 12) := rfl
    have hd12 : daysInMonth (t / 12) (11 + 1) = 31 := rfl
    rw [hb1, hb12, hd12]
    omega
  · have h1 : (t + 1) / 12 = t / 12 := by omega
    have h2 : (t + 1) % 12 = t % 12 + 1 := by omega
    rw [monthStart, monthStart, h1, h2]
    have := daysBeforeMonth_succ (t / 12) (t % 12 + 1) (by omega) (by omega)
    omega

theorem monthStart_mono (t1 t2 : Nat) (h12 : 12 ≤ t1) (h : t1 ≤ t2) :
    monthStart t1 ≤ monthStart t2 := by
  induction t2, h using Nat.le_induction with
  | base => exact le_rfl
  | succ t2 ht ih =>
    have := monthStart_succ t2 (by omega)
    omega

theorem toEpochDay_eq_monthStart (d : Date) (h : validDate d) :
    toEpochDay d = monthStart (monthIdx d) + (d.day - 1) := by
  obtain ⟨hy, hm1, hm2, hd1, hd2⟩ := h
  have hdiv : monthIdx d / 12 = d.year := by unfold monthIdx; omega
  have hmod : monthIdx d % 12 + 1 = d.month := by unfold monthIdx; omega
  rw [monthStart, hdiv, hmod, toEpochDay]

theorem toEpochDay_lt_of_monthIdx_lt (d1 d2 : Date) (v1 : validDate d1) (v2 : validDate d2)
    (h : monthIdx d1 < monthIdx d2) : toEpochDay d1 < toEpochDay d2 := by
  obtain ⟨hy1, hm11, hm12, hd11, hd12⟩ := v1
  obtain ⟨hy2, hm21, hm22, hd21, hd22⟩ := v2
  have h12 : 12 ≤ monthIdx d1 := by unfold monthIdx; omega
  have hdiv : monthIdx d1 / 12 = d1.year := by unfold monthIdx; omega
  have hmod : monthIdx d1 % 12 + 1 = d1.month := by unfold monthIdx; omega
  have hsucc := monthStart_succ (monthIdx d1) h12
  rw [hdiv, hmod] at hsucc
  have hmono := monthStart_mono (monthIdx d1 + 1) (monthIdx d2) (by omega) (by omega)
  have he1 := toEpochDay_eq_monthStart d1 ⟨hy1, hm11, hm12, hd11, hd12⟩
  have he2 := toEpochDay_eq_monthStart d2 ⟨hy2, hm21, hm22, hd21, hd22⟩
  omega

theorem nextDay_spec (d : Date) (h : validDate d) :
    validDate (nextDay d) ∧ toEpochDay (nextDay d) = toEpochDay d + 1 := by
  obtain ⟨hy, hm1, hm2, hd1, hd2⟩ := h
  unfold nextDay
  split_ifs with h1 h2
  · constructor
    · unfold validDate; dsimp only
      exact ⟨hy, hm1, hm2, by omega, h1⟩
    · unfold toEpochDay; dsimp only
      omega
  · have hms := daysBeforeMonth_succ d.year d.month hm1 (by omega)
    have hge := daysInMonth_ge d.year (d.month + 1)
    constructor
    · unfold validDate; dsimp only
      exact ⟨hy, by omega, by omega, by omega, by omega⟩
    · unfold toEpochDay; dsimp only
      omega
  · have hm : d.month = 12 := by omega
    have hby := daysBeforeYear_succ d.year hy
    have hb12 : daysBeforeMonth d.year 12 = 334 + leapOffset d.year := rfl
    have hd12 : daysInMonth d.year 12 = 31 := rfl
    have hd28 := daysInMonth_ge (d.year + 1) 1
    rw [hm, hd12] at hd2 h1
    constructor
    · unfold validDate; dsimp only
      exact ⟨by omega, by omega, by omega, by omega, by omega⟩
    · unfold toEpochDay; dsimp only
      have hb1 : daysBeforeMonth (d.year + 1) 1 = 0 := rfl
      rw [hb1, hm, hb12]
      omega

theorem addDays_spec (d : Date) (hv : validDate d) (n : Nat) :
    validDate (addDays d n) ∧ toEpochDay (addDays d n) = toEpochDay d + n := by
  induction n with
  | zero => exact ⟨hv, rfl⟩
  | succ n ih =>
    have h := nextDay_spec (addDays d n) ih.1
    refine ⟨h.1, ?_⟩
    rw [addDays, h.2, ih.2]
    omega


/-! ### Slot Generator lemmas -/

theorem mkSlot_start_eq (ctx : Ctx) (av : ProviderAvailabilityDB) (k : Nat) (st en : Int) :
    (mkSlot ctx av k st en).slot_start_time = st := rfl

theorem mkSlot_end_eq (ctx : Ctx) (av : ProviderAvailabilityDB) (k : Nat) (st en : Int) :
    (mkSlot ctx av k st en).slot_end_time = en := rfl

theorem slotLoop_mem (ctx : Ctx) (av : ProviderAvailabilityDB) (e : Int) :
    ∀ (fuel : Nat) (cur : Int) (k : Nat), ∀ x ∈ slotLoop ctx av e fuel cur k,
      cur ≤ x.slot_start_time ∧
      x.slot_end_time = x.slot_start_time + (av.slot_duration : Int) ∧
      x.slot_end_time ≤ e := by
  intro fuel
  induction fuel with
  | zero => intro cur k x hx; simp [slotLoop] at hx
  | succ f ih =>
    intro cur k x hx
    rw [slotLoop] at hx
    by_cases h1 : cur < e
    · rw [if_pos h1] at hx
      by_cases h2 : e < cur + (av.slot_duration : Int)
      · rw [if_pos h2] at hx; simp at hx
      · rw [if_neg h2] at hx
        rcases List.mem_cons.mp hx with hx | hx
        · subst hx
          rw [mkSlot_start_eq, mkSlot_end_eq]
          omega
        · have hbn : (0 : Int) ≤ (av.break_duration : Int) := Int.ofNat_nonneg _
          have hdn : (0 : Int) ≤ (av.slot_duration : Int) := Int.ofNat_nonneg _
          have := ih _ _ x hx
          omega
    · rw [if_neg h1] at hx; simp at hx

theorem slotLoop_head (ctx : Ctx) (av : ProviderAvailabilityDB) (e : Int)
    (fuel : Nat) (cur : Int) (k : Nat) (y : SlotRec) (rest : List SlotRec)
    (h : slotLoop ctx av e fuel cur k = y :: rest) : y.slot_start_time = cur := by
  cases fuel with
  | zero => simp [slotLoop] at h
  | succ f =>
    rw [slotLoop] at h
    by_cases h1 : cur < e
    · rw [if_pos h1] at h
      by_cases h2 : e < cur + (av.slot_duration : Int)
      · rw [if_pos h2] at h; simp at h
      · rw [if_neg h2] at h
        have hy : y = mkSlot ctx av k cur (cur + (av.slot_duration : Int)) :=
          (List.cons_eq_cons.mp h.symm).1
        rw [hy, mkSlot_start_eq]
    · rw [if_neg h1] at h; simp at h

theorem slotLoop_chain (ctx : Ctx) (av : ProviderAvailabilityDB) (e : Int) :
    ∀ (fuel : Nat) (cur : Int) (k : Nat),
      List.Chain' (fun a b => b.slot_start_time = a.slot_end_time + (av.break_duration : Int))
        (slotLoop ctx av e fuel cur k) := by
  intro fuel
  induction fuel with
  | zero => intro cur k; simp [slotLoop]
  | succ f ih =>
    intro cur k
    rw [slotLoop]
    by_cases h1 : cur < e
    · rw [if_pos h1]
      by_cases h2 : e < cur + (av.slot_duration : Int)
      · rw [if_pos h2]; exact List.chain'_nil
      · rw [if_neg h2]
        rw [List.chain'_cons']
        refine ⟨?_, ih _ _⟩
        intro y hy
        cases hrest : slotLoop ctx av e f
            (cur + (av.slot_duration : Int) + (av.break_duration : Int)) (k + 1) with
        | nil => rw [hrest] at hy; simp at hy
        | cons z zs =>
          rw [hrest] at hy
          simp only [List.head?_cons, Option.mem_def, Option.some.injEq] at hy
          subst hy
          rw [slotLoop_head ctx av e f _ _ z zs hrest, mkSlot_end_eq]
    · rw [if_neg h1]; exact List.chain'_nil

theorem slotLoop_pairwise (ctx : Ctx) (av : ProviderAvailabilityDB) (e : Int)
    (hdur : 1 ≤ av.slot_duration) :
    ∀ (fuel : Nat) (cur : Int) (k : Nat),
      List.Pairwise (fun a b => a.slot_end_time ≤ b.slot_start_time ∧
        a.slot_start_time < b.slot_start_time) (slotLoop ctx av e fuel cur k) := by
  intro fuel
  induction fuel with
  | zero => intro cur k; simp [slotLoop]
  | succ f ih =>
    intro cur k
    rw [slotLoop]
    by_cases h1 : cur < e
    · rw [if_pos h1]
      by_cases h2 : e < cur + (av.slot_duration : Int)
      · rw [if_pos h2]; exact List.Pairwise.nil
      · rw [if_neg h2]
        refine List.Pairwise.cons ?_ (ih _ _)
        intro y hy
        have hmem := slotLoop_mem ctx av e f _ _ y hy
        have hbn : (0 : Int) ≤ (av.break_duration : Int) := Int.ofNat_nonneg _
        have hdn : (1 : Int) ≤ (av.slot_duration : Int) := by exact_mod_cast hdur
        rw [mkSlot_start_eq, mkSlot_end_eq]
        omega
    · rw [if_neg h1]; exact List.Pairwise.nil

theorem slotLoop_length (ctx : Ctx) (av : ProviderAvailabilityDB) (e : Int)
    (hdur : 1 ≤ av.slot_duration) (hbrk : av.break_duration = 0) :
    ∀ (n fuel : Nat) (cur : Int) (k : Nat), n ≤ fuel →
      e = cur + (n : Int) * (av.slot_duration : Int) →
      (slotLoop ctx av e fuel cur k).length = n := by
  intro n
  induction n with
  | zero =>
    intro fuel cur k hf he
    simp only [Nat.cast_zero, zero_mul, add_zero] at he
    cases fuel with
    | zero => simp [slotLoop]
    | succ f => rw [slotLoop, he, if_neg (lt_irrefl cur)]; rfl
  | succ n ih =>
    intro fuel cur k hf he
    cases fuel with
    | zero => omega
    | succ f =>
      have hdn : (1 : Int) ≤ (av.slot_duration : Int) := by exact_mod_cast hdur
      have hprod : ((n + 1 : Nat) : Int) * (av.slot_duration : Int) =
          (n : Int) * (av.slot_duration : Int) + (av.slot_duration : Int) := by
        push_cast; ring
      have hnn : (0 : Int) ≤ (n : Int) * (av.slot_duration : Int) :=
        mul_nonneg (Int.ofNat_nonneg n) (Int.ofNat_nonneg _)
      rw [slotLoop, if_pos (by linarith), if_neg (by linarith), List.length_cons]
      have hrw : cur + (av.slot_duration : Int) + (av.break_duration : Int) =
          cur + (av.slot_duration : Int) := by
        rw [hbrk]; simp
      rw [hrw, ih f (cur + (av.slot_duration : Int)) (k + 1) (by omega) (by linarith)]

/-- C10: for every availability window (well-formed slot duration,
convertible bounds), the generated slot sequence is chronologically strictly
increasing and pairwise non-overlapping; each slot spans exactly
`slot_duration` minutes and ends no later than the window's UTC end; each
successive slot starts at the previous slot's end plus `break_duration`;
and every slot lies inside the window's converted UTC interval. -/
theorem claim_C10 (ctx : Ctx) (av : ProviderAvailabilityDB) (s e : Int)
    (slots : List SlotRec)
    (hdur : 1 ≤ av.slot_duration)
    (hs : convert_to_utc ctx av.start_time (toEpochDay av.date) av.timezone = some s)
    (he : convert_to_utc ctx av.end_time (toEpochDay av.date) av.timezone = some e)
    (hgen : generate_slots_from_availability ctx av = some slots) :
    (∀ x ∈ slots, s ≤ x.slot_start_time ∧
        x.slot_end_time = x.slot_start_time + (av.slot_duration : Int) ∧
        x.slot_end_time ≤ e) ∧
    List.Chain' (fun a b => b.slot_start_time = a.slot_end_time + (av.break_duration : Int))
      slots ∧
    List.Pairwise (fun a b => a.slot_end_time ≤ b.slot_start_time ∧
        a.slot_start_time < b.slot_start_time) slots := by
  rw [generate_slots_from_availability, hs, he, Option.some.injEq] at hgen
  subst hgen
  exact ⟨fun x hx => slotLoop_mem ctx av e _ _ _ x hx,
         slotLoop_chain ctx av e _ _ _,
         slotLoop_pairwise ctx av e hdur _ _ _⟩

/-- C10 witness: the 09:00-11:00 / 30-minute / no-break window generates
its four slots with all the invariant properties. -/
theorem claim_C10_witness :
    (∀ x ∈ slots0900, (1064060040 : Int) ≤ x.slot_start_time ∧
        x.slot_end_time = x.slot_start_time + (av0900.slot_duration : Int) ∧
        x.slot_end_time ≤ (1064060160 : Int)) ∧
    List.Chain' (fun a b => b.slot_start_time = a.slot_end_time + (av0900.break_duration : Int))
      slots0900 ∧
    List.Pairwise (fun a b => a.slot_end_time ≤ b.slot_start_time ∧
        a.slot_start_time < b.slot_start_time) slots0900 :=
  claim_C10 fixedCtx av0900 1064060040 1064060160 slots0900
    (by decide) (by decide) (by decide) (by decide)

/-- C1 (amended): when the zone's UTC offset at the window's start equals
its offset at the window's end (no DST transition inside the window), a
valid window with `break_duration = 0` whose local span is `n` slot
durations generates exactly `n` slots. -/
theorem claim_C1 (ctx : Ctx) (av : ProviderAvailabilityDB) (tz : Timezone)
    (h1 m1 h2 m2 n : Nat)
    (htz : ctx.tzdb av.timezone = some tz)
    (hp1 : parseHHMM av.start_time.data = some (h1, m1))
    (hp2 : parseHHMM av.end_time.data = some (h2, m2))
    (hoff : tz.offFromLocal (toEpochDay av.date) (h1 * 60 + m1)
          = tz.offFromLocal (toEpochDay av.date) (h2 * 60 + m2))
    (hbrk : av.break_duration = 0)
    (hdur : 1 ≤ av.slot_duration)
    (hmul : h2 * 60 + m2 = (h1 * 60 + m1) + n * av.slot_duration) :
    ∃ slots, generate_slots_from_availability ctx av = some slots ∧ slots.length = n := by
  have hs : convert_to_utc ctx av.start_time (toEpochDay av.date) av.timezone =
      some ((toEpochDay av.date : Int) * 1440 + (h1 * 60 + m1 : Nat) -
        tz.offFromLocal (toEpochDay av.date) (h1 * 60 + m1)) := by
    rw [convert_to_utc, htz, hp1]
  have he : convert_to_utc ctx av.end_time (toEpochDay av.date) av.timezone =
      some ((toEpochDay av.date : Int) * 1440 + (h2 * 60 + m2 : Nat) -
        tz.offFromLocal (toEpochDay av.date) (h2 * 60 + m2)) := by
    rw [convert_to_utc, htz, hp2]
  rw [generate_slots_from_availability, hs, he]
  refine ⟨_, rfl, ?_⟩
  have hespan : (toEpochDay av.date : Int) * 1440 + (h2 * 60 + m2 : Nat) -
      tz.offFromLocal (toEpochDay av.date) (h2 * 60 + m2) =
      ((toEpochDay av.date : Int) * 1440 + (h1 * 60 + m1 : Nat) -
        tz.offFromLocal (toEpochDay av.date) (h1 * 60 + m1)) +
        (n : Int) * (av.slot_duration : Int) := by
    rw [← hoff]
    have hc : ((h2 * 60 + m2 : Nat) : Int) = ((h1 * 60 + m1 : Nat) : Int) +
        (n : Int) * (av.slot_duration : Int) := by
      rw [hmul]; push_cast; ring
    rw [hc]; ring
  rw [hespan]
  apply slotLoop_length ctx av _ hdur hbrk n _ _ 0 _ rfl
  have h5 : (((toEpochDay av.date : Int) * 1440 + (h1 * 60 + m1 : Nat) -
      tz.offFromLocal (toEpochDay av.date) (h1 * 60 + m1)) +
      (n : Int) * (av.slot_duration : Int) -
      ((toEpochDay av.date : Int) * 1440 + (h1 * 60 + m1 : Nat) -
        tz.offFromLocal (toEpochDay av.date) (h1 * 60 + m1))).toNat =
      n * av.slot_duration := by
    have hc2 : ((toEpochDay av.date : Int) * 1440 + (h1 * 60 + m1 : Nat) -
        tz.offFromLocal (toEpochDay av.date) (h1 * 60 + m1)) +
        (n : Int) * (av.slot_duration : Int) -
        ((toEpochDay av.date : Int) * 1440 + (h1 * 60 + m1 : Nat) -
          tz.offFromLocal (toEpochDay av.date) (h1 * 60 + m1)) =
        ((n * av.slot_duration : Nat) : Int) := by push_cast; ring
    rw [hc2, Int.toNat_ofNat]
  rw [h5]
  have := Nat.mul_le_mul_left n hdur
  omega

/-- C1 counterexample: on 2024-03-10 America/New_York the 01:00-04:00
window has a local span of 180 minutes = 3 slot durations, but the
generator (working on the UTC span, which is 120 minutes because the
zone's offsets at the two bounds differ across the DST jump) produces 2
slots, not 3. -/
theorem claim_C1_cex :
    (generate_slots_from_availability dstCtx dstAv).map List.length = some 2 ∧
    parseHHMM dstAv.start_time.data = some (1, 0) ∧
    parseHHMM dstAv.end_time.data = some (4, 0) ∧
    (4 * 60 + 0) - (1 * 60 + 0) = 3 * dstAv.slot_duration ∧
    (2 : Nat) ≠ 3 := by
  exact ⟨by decide, by decide, by decide, by decide, by decide⟩

/-- C1 witness (for the amended claim): the 09:00-11:00 window with
30-minute slots and no break yields exactly (11:00-09:00)/30 = 4 slots. -/
theorem claim_C1_witness :
    ∃ slots, generate_slots_from_availability fixedCtx av0900 = some slots ∧
      slots.length = 4 :=
  claim_C1 fixedCtx av0900 estTz 9 0 11 0 4
    rfl (by decide) (by decide) rfl (by decide) (by decide) (by decide)


/-! ### Conflict Checker: C2 -/

/-- C2: the Conflict Checker returns true iff some stored slot of the
provider, other than the excluded one, strictly overlaps the candidate
interval (`s < slot_end` and `e > slot_start`); and it never consults
slot status (rewriting every stored status leaves the answer unchanged,
so a cancelled slot still conflicts). -/
theorem claim_C2 (slots : List SlotRec) (pid : String) (s e : Int)
    (exclude : Option String) (hex : ∀ x, exclude = some x → x ≠ "") :
    (check_slot_conflicts slots pid s e exclude = true ↔
      ∃ slot ∈ slots, slot.provider_id = pid ∧ exclude ≠ some slot.id ∧
        s < slot.slot_end_time ∧ e > slot.slot_start_time) ∧
    (∀ f : String → String,
      check_slot_conflicts (slots.map (fun sl => { sl with status := f sl.status }))
        pid s e exclude = check_slot_conflicts slots pid s e exclude) := by
  have hskip : ∀ slot : SlotRec,
      skipCheck exclude slot = decide (exclude = some slot.id) := by
    intro slot
    cases exclude with
    | none => simp [skipCheck]
    | some ex =>
      have hne : ex ≠ "" := hex ex rfl
      by_cases h : slot.id = ex
      · simp [skipCheck, h, hne]
      · have h2 : ex ≠ slot.id := fun hh => h hh.symm
        simp [skipCheck, h, h2, hne]
  constructor
  · rw [check_slot_conflicts, List.any_eq_true]
    constructor
    · rintro ⟨slot, hmem, hcond⟩
      rw [List.mem_filter] at hmem
      obtain ⟨hmm, hpid⟩ := hmem
      rw [hskip slot] at hcond
      by_cases hid : exclude = some slot.id
      · simp [hid] at hcond
      · simp [hid] at hcond
        exact ⟨slot, hmm, by simpa using hpid, hid, hcond.1, hcond.2⟩
    · rintro ⟨slot, hm, hpid, hnid, hlt, hgt⟩
      refine ⟨slot, List.mem_filter.mpr ⟨hm, by simp [hpid]⟩, ?_⟩
      rw [hskip slot]
      simp [hnid, hlt, hgt]
  · intro f
    rw [check_slot_conflicts, check_slot_conflicts, List.filter_map, List.any_map]
    rfl

/-- C2 witness: a slot whose status is "cancelled" still conflicts with an
overlapping candidate interval. -/
theorem claim_C2_witness :
    check_slot_conflicts [cancelledSlot] "provider-123" 130 190 none = true :=
  ((claim_C2 [cancelledSlot] "provider-123" 130 190 none
      (fun _ h => Option.noConfusion h)).1).mpr
    ⟨cancelledSlot, by simp, by decide, by simp, by decide, by decide⟩

/-! ### DeleteSlot: C6 -/

/-- C6: for every slot id whose stored slot has status "booked",
DeleteSlot fails (400, "Cannot delete booked slot") regardless of the
cascade flag, and the store is returned unchanged. -/
theorem claim_C6 (store : Store) (sid : String) (slot : SlotRec)
    (hfind : store.appointment_slots.find? (fun s => s.id == sid) = some slot)
    (hbooked : slot.status = "booked") (cascade : Bool) (reason : Option String) :
    delete_availability_slot store sid cascade reason =
      ({ success := false, message := "Cannot delete booked slot", status_code := some 400 },
       store) := by
  rw [delete_availability_slot, hfind]
  simp [hbooked]

/-- C6 witness: deleting the booked slot, even with cascade set, fails
with the invalid-state result and leaves the two-slot store intact. -/
theorem claim_C6_witness :
    delete_availability_slot storeB "slot-b1" true none =
      ({ success := false, message := "Cannot delete booked slot", status_code := some 400 },
       storeB) :=
  claim_C6 storeB "slot-b1" bookedSlot (by decide) rfl true none


/-! ### Time conversion round trip: C5 -/

theorem digitChar_toNat (n : Nat) (h : n ≤ 9) : (digitChar n).toNat = 48 + n := by
  interval_cases n <;> decide

theorem digitChar_isDigit (n : Nat) (h : n ≤ 9) : isDigitCh (digitChar n) = true := by
  interval_cases n <;> decide

theorem digitChar_ne_colon (n : Nat) (h : n ≤ 9) : digitChar n ≠ ':' := by
  interval_cases n <;> decide

theorem splitOnColon_five (a b c d : Char) (ha : a ≠ ':') (hb : b ≠ ':')
    (hc : c ≠ ':') (hd : d ≠ ':') :
    splitOnColon [a, b, ':', c, d] = [[a, b], [c, d]] := by
  simp [splitOnColon, ha, hb, hc, hd]

theorem charsToNat_two (x y : Char) (hx : isDigitCh x = true) (hy : isDigitCh y = true) :
    charsToNat [x, y] = some ((x.toNat - 48) * 10 + (y.toNat - 48)) := by
  simp only [charsToNat, List.isEmpty_cons, Bool.not_false, List.all_cons, List.all_nil,
    hx, hy, Bool.and_true, Bool.and_self, if_pos, List.foldl_cons, List.foldl_nil]
  norm_num

theorem parseHHMM_format (v : Nat) (hv : v < 1440) :
    parseHHMM (formatHHMM v).data = some (v / 60, v % 60) := by
  have h1 : v / 60 / 10 ≤ 9 := by omega
  have h2 : v / 60 % 10 ≤ 9 := by omega
  have h3 : v % 60 / 10 ≤ 9 := by omega
  have h4 : v % 60 % 10 ≤ 9 := by omega
  have hsp := splitOnColon_five (digitChar (v / 60 / 10)) (digitChar (v / 60 % 10))
    (digitChar (v % 60 / 10)) (digitChar (v % 60 % 10))
    (digitChar_ne_colon _ h1) (digitChar_ne_colon _ h2)
    (digitChar_ne_colon _ h3) (digitChar_ne_colon _ h4)
  have hn1 := charsToNat_two (digitChar (v / 60 / 10)) (digitChar (v / 60 % 10))
    (digitChar_isDigit _ h1) (digitChar_isDigit _ h2)
  have hn2 := charsToNat_two (digitChar (v % 60 / 10)) (digitChar (v % 60 % 10))
    (digitChar_isDigit _ h3) (digitChar_isDigit _ h4)
  rw [digitChar_toNat _ h1, digitChar_toNat _ h2] at hn1
  rw [digitChar_toNat _ h3, digitChar_toNat _ h4] at hn2
  have hh : (48 + v / 60 / 10 - 48) * 10 + (48 + v / 60 % 10 - 48) = v / 60 := by omega
  have hm : (48 + v % 60 / 10 - 48) * 10 + (48 + v % 60 % 10 - 48) = v % 60 := by omega
  rw [hh] at hn1
  rw [hm] at hn2
  rw [formatHHMM]
  show parseHHMM [digitChar (v / 60 / 10), digitChar (v / 60 % 10), ':',
    digitChar (v % 60 / 10), digitChar (v % 60 % 10)] = some (v / 60, v % 60)
  have h24 : v / 60 < 24 := by omega
  have h60 : v % 60 < 60 := by omega
  simp only [parseHHMM, hsp, hn1, hn2]
  simp [h24, h60]

/-- C5: the conversion round-trips: a valid `HH:MM` local time (hour
`h < 24`, minute `m < 60`, rendered zero-padded) on any date, in a zone
whose UTC-side offset at the converted instant agrees with the
localize-side offset at the local time (the non-ambiguous case), converts
to a UTC instant and back to exactly the same `HH:MM` string. -/
theorem claim_C5 (ctx : Ctx) (tzName : String) (tz : Timezone) (ed : Int) (h m : Nat)
    (htz : ctx.tzdb tzName = some tz) (hh : h < 24) (hm : m < 60)
    (hna : tz.offFromUtc (ed * 1440 + ((h * 60 + m : Nat) : Int) -
             tz.offFromLocal ed (h * 60 + m))
         = tz.offFromLocal ed (h * 60 + m)) :
    convert_to_utc ctx (formatHHMM (h * 60 + m)) ed tzName =
      some (ed * 1440 + ((h * 60 + m : Nat) : Int) - tz.offFromLocal ed (h * 60 + m)) ∧
    convert_from_utc ctx
      (ed * 1440 + ((h * 60 + m : Nat) : Int) - tz.offFromLocal ed (h * 60 + m)) tzName =
      some (formatHHMM (h * 60 + m)) := by
  have hdiv : (h * 60 + m) / 60 = h := by omega
  have hmod : (h * 60 + m) % 60 = m := by omega
  have hparse : parseHHMM (formatHHMM (h * 60 + m)).data = some (h, m) := by
    rw [parseHHMM_format (h * 60 + m) (by omega), hdiv, hmod]
  constructor
  · simp only [convert_to_utc, htz, hparse]
  · simp only [convert_from_utc, htz, Option.some.injEq]
    have hX : ed * 1440 + ((h * 60 + m : Nat) : Int) - tz.offFromLocal ed (h * 60 + m) +
        tz.offFromUtc (ed * 1440 + ((h * 60 + m : Nat) : Int) -
          tz.offFromLocal ed (h * 60 + m)) =
        ((h * 60 + m : Nat) : Int) + 1440 * ed := by
      rw [hna]; ring
    congr 1
    rw [hX]
    omega

/-- C5 witness: 10:30 on epoch day 738930 in UTC converts to a UTC instant
and back to "10:30". -/
theorem claim_C5_witness :
    convert_to_utc fixedCtx (formatHHMM (10 * 60 + 30)) 738930 "UTC" =
      some (738930 * 1440 + ((10 * 60 + 30 : Nat) : Int) -
        utcTz.offFromLocal 738930 (10 * 60 + 30)) ∧
    convert_from_utc fixedCtx
      (738930 * 1440 + ((10 * 60 + 30 : Nat) : Int) -
        utcTz.offFromLocal 738930 (10 * 60 + 30)) "UTC" =
      some (formatHHMM (10 * 60 + 30)) :=
  claim_C5 fixedCtx "UTC" utcTz 738930 10 30 rfl (by decide) (by decide) rfl


/-! ### Time-string comparison: C7 -/

theorem digitChar_beq_zero (n : Nat) (h : n ≤ 9) : (digitChar n == '0') = decide (n = 0) := by
  interval_cases n <;> decide

theorem digitChar_beq_one (n : Nat) (h : n ≤ 9) : (digitChar n == '1') = decide (n = 1) := by
  interval_cases n <;> decide

theorem digitChar_beq_two (n : Nat) (h : n ≤ 9) : (digitChar n == '2') = decide (n = 2) := by
  interval_cases n <;> decide

theorem formatHHMM_inj (v1 v2 : Nat) (h1 : v1 < 1440) (h2 : v2 < 1440)
    (he : formatHHMM v1 = formatHHMM v2) : v1 = v2 := by
  have hp := parseHHMM_format v1 h1
  rw [he, parseHHMM_format v2 h2] at hp
  rw [Option.some.injEq, Prod.ext_iff] at hp
  obtain ⟨hq, hr⟩ := hp
  simp only at hq hr
  omega

theorem lexLt_digits (a1 b1 c1 d1 a2 b2 c2 d2 : Nat)
    (ha1 : a1 ≤ 9) (hb1 : b1 ≤ 9) (hc1 : c1 ≤ 5) (hd1 : d1 ≤ 9)
    (ha2 : a2 ≤ 9) (hb2 : b2 ≤ 9) (hc2 : c2 ≤ 5) (hd2 : d2 ≤ 9) :
    lexLt [digitChar a1, digitChar b1, ':', digitChar c1, digitChar d1]
        [digitChar a2, digitChar b2, ':', digitChar c2, digitChar d2] = true ↔
      (a1 * 10 + b1) * 60 + (c1 * 10 + d1) < (a2 * 10 + b2) * 60 + (c2 * 10 + d2) := by
  have hcol : (':').toNat = 58 := rfl
  simp only [lexLt, hcol, digitChar_toNat a1 ha1, digitChar_toNat b1 hb1,
    digitChar_toNat c1 (by omega), digitChar_toNat d1 hd1, digitChar_toNat a2 ha2,
    digitChar_toNat b2 hb2, digitChar_toNat c2 (by omega), digitChar_toNat d2 hd2]
  simp only [Bool.or_eq_true, Bool.and_eq_true, decide_eq_true_eq, beq_iff_eq,
    Nat.beq_eq_true_eq, Bool.and_false, Bool.or_false]
  constructor
  · intro h
    omega
  · intro h
    rcases Nat.lt_trichotomy a1 a2 with q | q | q
    · left; omega
    · right
      refine ⟨by omega, ?_⟩
      rcases Nat.lt_trichotomy b1 b2 with r | r | r
      · left; omega
      · right
        refine ⟨by omega, ?_⟩
        right
        refine ⟨trivial, ?_⟩
        rcases Nat.lt_trichotomy c1 c2 with s | s | s
        · left; omega
        · right
          exact ⟨by omega, by omega⟩
        · exact absurd h (by omega)
      · exact absurd h (by omega)
    · exact absurd h (by omega)

theorem lexLt_format (v1 v2 : Nat) (h1 : v1 < 1440) (h2 : v2 < 1440) :
    lexLt (formatHHMM v1).data (formatHHMM v2).data = true ↔ v1 < v2 := by
  have hiff := lexLt_digits (v1 / 60 / 10) (v1 / 60 % 10) (v1 % 60 / 10) (v1 % 60 % 10)
    (v2 / 60 / 10) (v2 / 60 % 10) (v2 % 60 / 10) (v2 % 60 % 10)
    (by omega) (by omega) (by omega) (by omega)
    (by omega) (by omega) (by omega) (by omega)
  have hr1 : (v1 / 60 / 10 * 10 + v1 / 60 % 10) * 60 + (v1 % 60 / 10 * 10 + v1 % 60 % 10) =
      v1 := by omega
  have hr2 : (v2 / 60 / 10 * 10 + v2 / 60 % 10) * 60 + (v2 % 60 / 10 * 10 + v2 % 60 % 10) =
      v2 := by omega
  rw [hr1, hr2] at hiff
  exact hiff

theorem matchesTimeFormat_digits (a b c d : Nat)
    (ha : a ≤ 9) (hb : b ≤ 9) (hc : c ≤ 9) (hd : d ≤ 9)
    (hhour : a * 10 + b ≤ 23) (hmin : c ≤ 5) :
    matchesTimeFormat [digitChar a, digitChar b, ':', digitChar c, digitChar d] = true := by
  rw [matchesTimeFormat, splitOnColon_five _ _ _ _ (digitChar_ne_colon _ ha)
    (digitChar_ne_colon _ hb) (digitChar_ne_colon _ hc) (digitChar_ne_colon _ hd)]
  simp only [hourGroupOk, minuteGroupOk, digitChar_beq_zero _ ha, digitChar_beq_one _ ha,
    digitChar_beq_two _ ha, digitChar_isDigit _ hb, digitChar_isDigit _ hd,
    digitChar_toNat _ hb, digitChar_toNat _ hc,
    Bool.or_eq_true, Bool.and_eq_true, decide_eq_true_eq, Bool.and_true, Bool.true_and,
    and_true, true_and]
  omega

/-- C7 counterexample: "9:00" and "10:00" are both accepted by the input
pattern `([01]?[0-9]|2[0-3]):[0-5][0-9]` (it is not fixed-width), the end
time of day 10:00 is strictly later than 9:00, yet the lexicographic
validation rejects the pair ("10:00" < "9:00" as strings). -/
theorem claim_C7_cex :
    matchesTimeFormat "9:00".data = true ∧
    matchesTimeFormat "10:00".data = true ∧
    parseHHMM "9:00".data = some (9, 0) ∧
    parseHHMM "10:00".data = some (10, 0) ∧
    9 * 60 + 0 < 10 * 60 + 0 ∧
    validate_end_time_ok "9:00" "10:00" = false ∧
    pyStrLt "9:00" "10:00" = false := by
  exact ⟨by decide, by decide, by decide, by decide, by decide, by decide, by decide⟩

/-- C7 (amended): restricted to zero-padded HH:MM strings (which the
input pattern accepts and which are fixed-width), the string-lexicographic
start<end validation accepts exactly when the end time of day is strictly
later: for all minute values `v1, v2 < 1440`, the rendered strings are
accepted by the pattern, the pydantic validator accepts iff `v1 < v2`,
and the service's `start_time >= end_time` gate passes iff `v1 < v2`. -/
theorem claim_C7 (v1 v2 : Nat) (h1 : v1 < 1440) (h2 : v2 < 1440) :
    matchesTimeFormat (formatHHMM v1).data = true ∧
    (validate_end_time_ok (formatHHMM v1) (formatHHMM v2) = true ↔ v1 < v2) ∧
    (pyStrLt (formatHHMM v1) (formatHHMM v2) = true ↔ v1 < v2) := by
  have hlex21 := lexLt_format v2 v1 h2 h1
  refine ⟨?_, ⟨?_, ?_⟩, by rw [pyStrLt]; exact lexLt_format v1 v2 h1 h2⟩
  · exact matchesTimeFormat_digits (v1 / 60 / 10) (v1 / 60 % 10) (v1 % 60 / 10)
      (v1 % 60 % 10) (by omega) (by omega) (by omega) (by omega) (by omega) (by omega)
  · intro hva
    rcases Nat.lt_or_ge v2 v1 with hlt | hge
    · rw [validate_end_time_ok, pyStrLe, hlex21.mpr hlt] at hva
      simp at hva
    · rcases Nat.lt_or_ge v1 v2 with h | h
      · exact h
      · have hveq : v1 = v2 := by omega
        rw [validate_end_time_ok, pyStrLe, hveq] at hva
        simp at hva
  · intro hlt
    rw [validate_end_time_ok, pyStrLe]
    have hn1 : lexLt (formatHHMM v2).data (formatHHMM v1).data = false := by
      rw [Bool.eq_false_iff]
      intro hcon
      exact absurd (hlex21.mp hcon) (by omega)
    have hn2 : (formatHHMM v2 == formatHHMM v1) = false := by
      rw [beq_eq_false_iff_ne]
      intro he
      exact absurd (formatHHMM_inj _ _ h2 h1 he) (by omega)
    rw [hn1, hn2]
    rfl

/-- C7 witness (for the amended claim): 09:00 / 10:00 zero-padded are in
the format and validation accepts them in the correct order. -/
theorem claim_C7_witness :
    matchesTimeFormat (formatHHMM 540).data = true ∧
    (validate_end_time_ok (formatHHMM 540) (formatHHMM 600) = true ↔ 540 < 600) ∧
    (pyStrLt (formatHHMM 540) (formatHHMM 600) = true ↔ 540 < 600) :=
  claim_C7 540 600 (by decide) (by decide)


/-! ### Search: C8 -/

theorem addToGroups_preserve (g : List (String × List SlotRec)) (x s : SlotRec)
    (h : ∃ p ∈ g, p.1 = s.provider_id ∧ s ∈ p.2) :
    ∃ p ∈ addToGroups g x, p.1 = s.provider_id ∧ s ∈ p.2 := by
  obtain ⟨p, hp, hkey, hmem⟩ := h
  rw [addToGroups]
  by_cases hany : (g.any (fun q => q.1 == x.provider_id)) = true
  · rw [if_pos hany]
    by_cases hpx : p.1 = x.provider_id
    · exact ⟨(p.1, p.2 ++ [x]), List.mem_map.mpr ⟨p, hp, by simp [hpx]⟩, hkey,
        by simp [hmem]⟩
    · exact ⟨p, List.mem_map.mpr ⟨p, hp, by simp [hpx]⟩, hkey, hmem⟩
  · rw [if_neg hany]
    exact ⟨p, List.mem_append_left _ hp, hkey, hmem⟩

theorem addToGroups_self (g : List (String × List SlotRec)) (x : SlotRec) :
    ∃ p ∈ addToGroups g x, p.1 = x.provider_id ∧ x ∈ p.2 := by
  rw [addToGroups]
  by_cases hany : (g.any (fun q => q.1 == x.provider_id)) = true
  · rw [if_pos hany]
    rw [List.any_eq_true] at hany
    obtain ⟨q, hq, hqx⟩ := hany
    rw [beq_iff_eq] at hqx
    exact ⟨(q.1, q.2 ++ [x]), List.mem_map.mpr ⟨q, hq, by simp [hqx]⟩, hqx, by simp⟩
  · rw [if_neg hany]
    exact ⟨(x.provider_id, [x]), List.mem_append_right _ (by simp), rfl, by simp⟩

theorem addToGroups_sound (g : List (String × List SlotRec)) (x : SlotRec)
    (Q : SlotRec → Prop)
    (hg : ∀ p ∈ g, ∀ s ∈ p.2, s.provider_id = p.1 ∧ Q s) (hx : Q x) :
    ∀ p ∈ addToGroups g x, ∀ s ∈ p.2, s.provider_id = p.1 ∧ Q s := by
  intro p hp s hs
  rw [addToGroups] at hp
  by_cases hany : (g.any (fun q => q.1 == x.provider_id)) = true
  · rw [if_pos hany] at hp
    obtain ⟨q, hq, hqe⟩ := List.mem_map.mp hp
    by_cases hqx : q.1 = x.provider_id
    · rw [if_pos (by simp [hqx])] at hqe
      rw [← hqe] at hs
      simp only at hs
      rcases List.mem_append.mp hs with hsq | hsx
      · have := hg q hq s hsq
        rw [← hqe]
        exact ⟨this.1, this.2⟩
      · simp at hsx
      
        subst hsx
        rw [← hqe]
        exact ⟨hqx.symm ▸ rfl, hx⟩
    · rw [if_neg (by simp [hqx])] at hqe
      rw [← hqe] at hs ⊢
      exact hg q hq s hs
  · rw [if_neg hany] at hp
    rcases List.mem_append.mp hp with h | h
    · exact hg p h s hs
    · simp only [List.mem_singleton] at h
      subst h
      simp only [List.mem_singleton] at hs
      subst hs
      exact ⟨rfl, hx⟩

theorem foldl_addToGroups_sound (l : List SlotRec) (Q : SlotRec → Prop) :
    ∀ g, (∀ p ∈ g, ∀ s ∈ p.2, s.provider_id = p.1 ∧ Q s) → (∀ x ∈ l, Q x) →
      ∀ p ∈ l.foldl addToGroups g, ∀ s ∈ p.2, s.provider_id = p.1 ∧ Q s := by
  induction l with
  | nil => intro g hg _; exact hg
  | cons x xs ih =>
    intro g hg hl
    exact ih (addToGroups g x)
      (addToGroups_sound g x Q hg (hl x (by simp)))
      (fun y hy => hl y (by simp [hy]))

theorem foldl_addToGroups_complete (l : List SlotRec) :
    ∀ (g : List (String × List SlotRec)) (s : SlotRec),
      ((∃ p ∈ g, p.1 = s.provider_id ∧ s ∈ p.2) ∨ s ∈ l) →
      ∃ p ∈ l.foldl addToGroups g, p.1 = s.provider_id ∧ s ∈ p.2 := by
  induction l with
  | nil =>
    intro g s h
    rcases h with h | h
    · exact h
    · simp at h
  | cons x xs ih =>
    intro g s h
    rcases h with h | h
    · exact ih _ s (.inl (addToGroups_preserve g x s h))
    · rcases List.mem_cons.mp h with rfl | h
      · exact ih _ s (.inl (addToGroups_self g s))
      · exact ih _ s (.inr h)

/-- C8: with `available_only = true` and `max_price = 100`, Search returns
only store slots whose status is "available" and whose pricing base fee is
at most 100 (slots without pricing count as fee 0), grouped under their
own provider; and every stored slot passing the whole filter chain appears
in its provider's group. -/
theorem claim_C8 (store : Store) (req : AvailabilitySearchRequest)
    (hao : req.available_only = true) (hmp : req.max_price = some 100) :
    (∀ gp ∈ search_availability_slots store req, ∀ s ∈ gp.2,
        s.provider_id = gp.1 ∧ s.status = "available" ∧ slotBaseFee s ≤ 100 ∧
        s ∈ store.appointment_slots ∧ passesSearch req s = true) ∧
    (∀ s ∈ store.appointment_slots, passesSearch req s = true →
        ∃ gp ∈ search_availability_slots store req, gp.1 = s.provider_id ∧ s ∈ gp.2) := by
  have hQ : ∀ s : SlotRec, passesSearch req s = true →
      s.status = "available" ∧ slotBaseFee s ≤ 100 := by
    intro s hp
    rw [passesSearch] at hp
    simp only [hao, hmp, Bool.true_and, Bool.and_eq_true] at hp
    obtain ⟨⟨⟨⟨⟨⟨⟨hA, hB⟩, hC⟩, hD⟩, hE⟩, hF⟩, hG⟩, hH⟩ := hp
    constructor
    · simpa using hA
    · have h100 : ((100 : Rat) == 0) = false := by decide
      rw [h100] at hG
      simp at hG
      exact hG
  constructor
  · intro gp hgp s hs
    have hsound := foldl_addToGroups_sound
      (store.appointment_slots.filter (passesSearch req))
      (fun s => s ∈ store.appointment_slots ∧ passesSearch req s = true) []
      (by simp)
      (fun x hx => by
        rw [List.mem_filter] at hx
        exact ⟨hx.1, hx.2⟩)
      gp hgp s hs
    obtain ⟨hprov, hmem, hpass⟩ := hsound
    obtain ⟨hstatus, hfee⟩ := hQ s hpass
    exact ⟨hprov, hstatus, hfee, hmem, hpass⟩
  · intro s hmem hpass
    exact foldl_addToGroups_complete
      (store.appointment_slots.filter (passesSearch req)) [] s
      (.inr (List.mem_filter.mpr ⟨hmem, hpass⟩))

/-- C8 witness: the one-slot store with an available, 50-fee slot is
returned grouped under its provider by the available-only, max-price-100
search. -/
theorem claim_C8_witness :
    (∀ gp ∈ search_availability_slots storeS searchReq100, ∀ s ∈ gp.2,
        s.provider_id = gp.1 ∧ s.status = "available" ∧ slotBaseFee s ≤ 100 ∧
        s ∈ storeS.appointment_slots ∧ passesSearch searchReq100 s = true) ∧
    (∀ s ∈ storeS.appointment_slots, passesSearch searchReq100 s = true →
        ∃ gp ∈ search_availability_slots storeS searchReq100,
          gp.1 = s.provider_id ∧ s ∈ gp.2) :=
  claim_C8 storeS searchReq100 rfl rfl


/-! ### Create: C3 -/

/-- C3: Create of a non-recurring window UTC-converts its bounds and fails
with the 409 SlotConflict result, storing nothing, whenever the interval
overlaps an existing slot of the provider; Create of a recurring window
performs no conflict pre-check and stores every occurrence produced by
the Recurrence Expander (for any store, conflicting or not); and the
concrete 09:15-09:45 second window over the stored 09:00-11:00 slots
fails with the SlotConflict result, store unchanged. -/
theorem claim_C3 (ctx : Ctx) (store : Store) (av : ProviderAvailabilityCreate)
    (hlt : pyStrLt av.start_time av.end_time = true) :
    (∀ s e : Int, av.is_recurring = false →
      convert_to_utc ctx av.start_time (toEpochDay av.date) av.timezone = some s →
      convert_to_utc ctx av.end_time (toEpochDay av.date) av.timezone = some e →
      check_slot_conflicts store.appointment_slots av.provider_id s e none = true →
      create_provider_availability ctx store av =
        ({ success := false, message := "Time slot conflicts with existing availability",
           status_code := some 409 }, store)) ∧
    (∀ (results : List (ProviderAvailabilityDB × List SlotRec)) (ed : Date),
      av.is_recurring = true →
      av.recurrence_end_date = some ed →
      generate_recurring_slots ctx av = some results →
      create_provider_availability ctx store av =
        ({ success := true, message := "Availability slots created successfully",
           slots_created := some ((results.map (fun pr => pr.2.length)).sum),
           availability_id := some "multiple",
           date_range := some (av.date, ed),
           total_appointments_available :=
             some ((results.map (fun pr => pr.2.length)).sum * av.max_appointments_per_slot) },
         { provider_availability :=
             store.provider_availability ++ results.map (fun pr => pr.1),
           appointment_slots :=
             store.appointment_slots ++ (results.map (fun pr => pr.2)).flatten })) ∧
    (create_provider_availability fixedCtx store0900 av0915 =
      ({ success := false, message := "Time slot conflicts with existing availability",
         status_code := some 409 }, store0900)) := by
  refine ⟨?_, ?_, by decide⟩
  · intro s e hrec hs he hconf
    rw [create_provider_availability]
    simp only [hlt, Bool.not_true, Bool.false_eq_true, if_false, hrec, Bool.not_false,
      if_true, hs, he, hconf]
  · intro results ed hrec hed hgen
    rw [create_provider_availability]
    simp only [hlt, Bool.not_true, Bool.false_eq_true, if_false, hrec, Bool.not_false,
      if_true, hgen, hed]

/-- C3 witness: the spec section 8 scenario, via the theorem's general
hypotheses at the concrete store. -/
theorem claim_C3_witness :
    create_provider_availability fixedCtx store0900 av0915 =
      ({ success := false, message := "Time slot conflicts with existing availability",
         status_code := some 409 }, store0900) :=
  (claim_C3 fixedCtx store0900 av0915 (by decide)).2.2


/-! ### UpdateSlot: C9 -/

/-- C9 evaluation at the failing input: patching slot-u1 (stored UTC start
14:00) with `start_time = "10:00"` reports success and refreshes
`updated_at`, but the stored `slot_start_time` — the field every reader
(listing, search, the conflict checker itself) uses — is unchanged: the
patch value is written under the new dict key `start_time` instead.  The
conflict pre-check even ran against the intended new 10:00 instant, which
differs from the slot's still-stored start. -/
theorem claim_C9 :
    update_availability_slot fixedCtx storeU "slot-u1" patch10 =
      ({ success := true, message := "Slot updated successfully" },
       { provider_availability := [],
         appointment_slots := [{ slotU with
           start_time := some "10:00"
           updated_at := fixedCtx.now }] }) ∧
    (update_availability_slot fixedCtx storeU "slot-u1" patch10).2.appointment_slots.map
        (fun s => s.slot_start_time) = [slotU.slot_start_time] ∧
    convert_to_utc fixedCtx "10:00" (slotU.slot_start_time.fdiv 1440) "UTC" =
      some (slotU.slot_start_time.fdiv 1440 * 1440 + 600) ∧
    slotU.slot_start_time ≠ slotU.slot_start_time.fdiv 1440 * 1440 + 600 := by
  exact ⟨by decide, by decide, by decide, by decide⟩


/-! ### Recurrence Expander: C4 -/

theorem stepDates_spec (step : Nat) (hstep : 1 ≤ step) (d0 u : Date) (hv : validDate d0) :
    (∀ d ∈ stepDates step d0 u, validDate d ∧ toEpochDay d0 ≤ toEpochDay d ∧
      toEpochDay d ≤ toEpochDay u) ∧
    List.Pairwise (fun a b => toEpochDay a < toEpochDay b) (stepDates step d0 u) ∧
    (toEpochDay d0 ≤ toEpochDay u → (stepDates step d0 u).head? = some d0) := by
  rw [stepDates]
  by_cases hle : toEpochDay d0 ≤ toEpochDay u
  · rw [if_pos hle]
    refine ⟨?_, ?_, ?_⟩
    · intro d hd
      obtain ⟨k, hk, hkd⟩ := List.mem_map.mp hd
      rw [List.mem_range] at hk
      have has := addDays_spec d0 hv (k * step)
      have hk1 : k ≤ (toEpochDay u - toEpochDay d0) / step := by omega
      have hk2 : k * step ≤ toEpochDay u - toEpochDay d0 :=
        le_trans (Nat.mul_le_mul_right step hk1) (Nat.div_mul_le_self _ _)
      rw [← hkd]
      exact ⟨has.1, by omega, by omega⟩
    · rw [List.pairwise_map]
      refine (List.pairwise_lt_range _).imp ?_
      intro k1 k2 hk
      have h1 := addDays_spec d0 hv (k1 * step)
      have h2 := addDays_spec d0 hv (k2 * step)
      have : k1 * step < k2 * step := by
        have := Nat.mul_lt_mul_right (by omega : 0 < step) |>.mpr hk
        omega
      omega
    · intro _
      rw [List.range_succ_eq_map]
      simp [addDays]
  · rw [if_neg hle]
    exact ⟨by simp, by simp, fun h => absurd h hle⟩

theorem monthIdx_recon (t : Nat) (D : Nat) :
    monthIdx ⟨t / 12, t % 12 + 1, D⟩ = t := by
  unfold monthIdx
  simp only
  omega

theorem monthCandidate_zero (d0 : Date) (hv : validDate d0) : monthCandidate d0 0 = d0 := by
  obtain ⟨hy, hm1, hm2, hd1, hd2⟩ := hv
  obtain ⟨y, m, dd⟩ := d0
  simp only at hy hm1 hm2
  simp only [monthCandidate, monthIdx, Date.mk.injEq]
  exact ⟨by omega, by omega, trivial⟩

theorem monthIdx_monthCandidate (d0 : Date) (k : Nat) :
    monthIdx (monthCandidate d0 k) = monthIdx d0 + k := monthIdx_recon _ _

theorem monthCandidate_valid (d0 : Date) (hv : validDate d0) (k : Nat)
    (hdim : (monthCandidate d0 k).day ≤
      daysInMonth (monthCandidate d0 k).year (monthCandidate d0 k).month) :
    validDate (monthCandidate d0 k) := by
  obtain ⟨hy, hm1, hm2, hd1, hd2⟩ := hv
  have hi12 : 12 ≤ monthIdx d0 := by unfold monthIdx; omega
  unfold validDate monthCandidate
  dsimp only
  unfold monthCandidate at hdim
  dsimp only at hdim
  exact ⟨by omega, by omega, by omega, hd1, hdim⟩

theorem monthlyDates_spec (d0 u : Date) (hv : validDate d0) (hvu : validDate u) :
    (∀ d ∈ monthlyDates d0 u, validDate d ∧ toEpochDay d0 ≤ toEpochDay d ∧
      toEpochDay d ≤ toEpochDay u) ∧
    List.Pairwise (fun a b => toEpochDay a < toEpochDay b) (monthlyDates d0 u) ∧
    (toEpochDay d0 ≤ toEpochDay u → (monthlyDates d0 u).head? = some d0) := by
  have hi12 : 12 ≤ monthIdx d0 := by
    obtain ⟨hy, hm1, hm2, hd1, hd2⟩ := hv
    unfold monthIdx
    omega
  have hcand : ∀ k d,
      (if (monthCandidate d0 k).day ≤
            daysInMonth (monthCandidate d0 k).year (monthCandidate d0 k).month ∧
          toEpochDay (monthCandidate d0 k) ≤ toEpochDay u
        then some (monthCandidate d0 k) else none) = some d →
      validDate d ∧ toEpochDay d0 ≤ toEpochDay d ∧ toEpochDay d ≤ toEpochDay u ∧
        monthIdx d = monthIdx d0 + k := by
    intro k d hif
    split_ifs at hif with hcond
    · obtain ⟨hdim, hdu⟩ := hcond
      injection hif with hif
      subst hif
      have hvald := monthCandidate_valid d0 hv k hdim
      refine ⟨hvald, ?_, hdu, monthIdx_monthCandidate d0 k⟩
      rcases Nat.eq_zero_or_pos k with rfl | hk
      · exact le_of_eq (congrArg toEpochDay (monthCandidate_zero d0 hv)).symm
      · have hlt : monthIdx d0 < monthIdx (monthCandidate d0 k) := by
          rw [monthIdx_monthCandidate]; omega
        exact le_of_lt (toEpochDay_lt_of_monthIdx_lt _ _ hv hvald hlt)
  rw [monthlyDates]
  by_cases hle : toEpochDay d0 ≤ toEpochDay u
  · rw [if_pos hle]
    have hi0u : monthIdx d0 ≤ monthIdx u := by
      by_contra hgt
      have := toEpochDay_lt_of_monthIdx_lt u d0 hvu hv (by omega)
      omega
    rw [if_pos hi0u]
    refine ⟨?_, ?_, ?_⟩
    · intro d hd
      obtain ⟨k, hk, hkd⟩ := List.mem_filterMap.mp hd
      have := hcand k d hkd
      exact ⟨this.1, this.2.1, this.2.2.1⟩
    · refine List.Pairwise.filterMap _ ?_ (List.pairwise_lt_range _)
      intro k1 k2 hk d1 hd1' d2 hd2'
      have h1 := hcand k1 d1 hd1'
      have h2 := hcand k2 d2 hd2'
      exact toEpochDay_lt_of_monthIdx_lt d1 d2 h1.1 h2.1 (by omega)
    · intro _
      rw [List.range_succ_eq_map, List.filterMap_cons]
      have hdval : (monthCandidate d0 0).day ≤
          daysInMonth (monthCandidate d0 0).year (monthCandidate d0 0).month := by
        rw [monthCandidate_zero d0 hv]
        exact hv.2.2.2.2
      have hdle : toEpochDay (monthCandidate d0 0) ≤ toEpochDay u := by
        rw [monthCandidate_zero d0 hv]
        exact hle
      rw [if_pos ⟨hdval, hdle⟩, monthCandidate_zero d0 hv]
      simp
  · rw [if_neg hle]
    exact ⟨by simp, by simp, fun h => absurd h hle⟩

theorem rruleDates_spec (pat : RecurrencePattern) (d0 u : Date)
    (hv : validDate d0) (hvu : validDate u) :
    (∀ d ∈ rruleDates pat d0 u, validDate d ∧ toEpochDay d0 ≤ toEpochDay d ∧
      toEpochDay d ≤ toEpochDay u) ∧
    List.Pairwise (fun a b => toEpochDay a < toEpochDay b) (rruleDates pat d0 u) ∧
    (toEpochDay d0 ≤ toEpochDay u → (rruleDates pat d0 u).head? = some d0) := by
  cases pat with
  | daily => exact stepDates_spec 1 (by omega) d0 u hv
  | weekly => exact stepDates_spec 7 (by omega) d0 u hv
  | monthly => exact monthlyDates_spec d0 u hv hvu

theorem mapM_occF (ctx : Ctx) (av : ProviderAvailabilityCreate) :
    ∀ (l : List (Nat × Date)) (r : List (ProviderAvailabilityDB × List SlotRec)),
      l.mapM (occF ctx av) = some r →
      r.map (fun pr => pr.1.date) = l.map (fun jd => jd.2) ∧
      ∀ pr ∈ r, (∃ jd ∈ l, pr.1 = availabilityDBOfCreate ctx av jd.2 (ctx.avIds jd.1)) ∧
        generate_slots_from_availability ctx pr.1 = some pr.2 := by
  intro l
  induction l with
  | nil =>
    intro r h
    rw [List.mapM_nil] at h
    cases h
    exact ⟨rfl, by simp⟩
  | cons jd rest ih =>
    intro r h
    rw [List.mapM_cons] at h
    cases hg : generate_slots_from_availability ctx
        (availabilityDBOfCreate ctx av jd.2 (ctx.avIds jd.1)) with
    | none =>
      simp only [occF, hg] at h
      simp at h
    | some slots =>
      simp only [occF, hg] at h
      cases hrest : rest.mapM (occF ctx av) with
      | none =>
        rw [hrest] at h
        simp at h
      | some rs =>
        rw [hrest] at h
        simp only [Option.bind_eq_bind, Option.some_bind, Option.pure_def,
          Option.some.injEq] at h
        subst h
        obtain ⟨hmap, hmem⟩ := ih rs hrest
        constructor
        · simp only [List.map_cons, hmap]
          rfl
        · intro pr hpr
          rcases List.mem_cons.mp hpr with rfl | hpr
          · exact ⟨⟨jd, by simp, rfl⟩, by simp [hg]⟩
          · obtain ⟨⟨jd', hjd', he'⟩, hgen'⟩ := hmem pr hpr
            exact ⟨⟨jd', by simp [hjd'], he'⟩, hgen'⟩

/-- C4: for a recurring window with one of the three supported patterns
and an end date, the Recurrence Expander yields one (window copy with the
occurrence date substituted, generated slot sequence) pair per occurrence
date, in chronological order, every occurrence date lying between the
start date and the end date inclusive and the first occurrence being the
start date; and for pattern weekly with start 2024-02-15 and end
2024-03-01 the occurrence dates are exactly 2024-02-15, 2024-02-22 and
2024-02-29. -/
theorem claim_C4 (ctx : Ctx) (av : ProviderAvailabilityCreate) (pat : RecurrencePattern)
    (ed : Date) (results : List (ProviderAvailabilityDB × List SlotRec))
    (hrec : av.is_recurring = true)
    (hpat : av.recurrence_pattern = some pat)
    (hed : av.recurrence_end_date = some ed)
    (hv : validDate av.date) (hvu : validDate ed)
    (hgen : generate_recurring_slots ctx av = some results) :
    results.map (fun pr => pr.1.date) = rruleDates pat av.date ed ∧
    (∀ pr ∈ results, (∃ j d, pr.1 = availabilityDBOfCreate ctx av d (ctx.avIds j)) ∧
        generate_slots_from_availability ctx pr.1 = some pr.2) ∧
    (∀ pr ∈ results, validDate pr.1.date ∧
        toEpochDay av.date ≤ toEpochDay pr.1.date ∧
        toEpochDay pr.1.date ≤ toEpochDay ed) ∧
    List.Pairwise (fun a b => toEpochDay a.1.date < toEpochDay b.1.date) results ∧
    (toEpochDay av.date ≤ toEpochDay ed →
      (results.map (fun pr => pr.1.date)).head? = some av.date) ∧
    rruleDates .weekly ⟨2024, 2, 15⟩ ⟨2024, 3, 1⟩ =
      [⟨2024, 2, 15⟩, ⟨2024, 2, 22⟩, ⟨2024, 2, 29⟩] := by
  rw [generate_recurring_slots] at hgen
  simp only [hrec, if_true, hpat, hed] at hgen
  obtain ⟨hmap, hmem⟩ := mapM_occF ctx av _ results hgen
  rw [List.enum_map_snd] at hmap
  obtain ⟨hbounds, hpw, hhead⟩ := rruleDates_spec pat av.date ed hv hvu
  refine ⟨hmap, ?_, ?_, ?_, ?_, by decide⟩
  · intro pr hpr
    obtain ⟨⟨jd, hjd, he⟩, hgen'⟩ := hmem pr hpr
    exact ⟨⟨jd.1, jd.2, he⟩, hgen'⟩
  · intro pr hpr
    have hdmem : pr.1.date ∈ rruleDates pat av.date ed := by
      rw [← hmap]
      exact List.mem_map.mpr ⟨pr, hpr, rfl⟩
    exact hbounds _ hdmem
  · have hthis : List.Pairwise (fun a b => toEpochDay a < toEpochDay b)
        (results.map (fun pr => pr.1.date)) := by
      rw [hmap]; exact hpw
    have hpm : (results.map (fun pr => pr.1.date)).Pairwise
          (fun a b => toEpochDay a < toEpochDay b) ↔
        results.Pairwise (fun a b => toEpochDay a.1.date < toEpochDay b.1.date) :=
      List.pairwise_map
    exact hpm.mp hthis
  · intro hle
    rw [hmap]
    exact hhead hle

/-- C4 witness: the concrete weekly create generates three occurrences on
2024-02-15, 2024-02-22, 2024-02-29 with all the stated properties. -/
theorem claim_C4_witness :
    rsWeekly.map (fun pr => pr.1.date) = rruleDates .weekly ⟨2024, 2, 15⟩ ⟨2024, 3, 1⟩ ∧
    (∀ pr ∈ rsWeekly, (∃ j d, pr.1 = availabilityDBOfCreate fixedCtx avWeekly d
        (fixedCtx.avIds j)) ∧
        generate_slots_from_availability fixedCtx pr.1 = some pr.2) ∧
    (∀ pr ∈ rsWeekly, validDate pr.1.date ∧
        toEpochDay avWeekly.date ≤ toEpochDay pr.1.date ∧
        toEpochDay pr.1.date ≤ toEpochDay ⟨2024, 3, 1⟩) ∧
    List.Pairwise (fun a b => toEpochDay a.1.date < toEpochDay b.1.date) rsWeekly ∧
    (toEpochDay avWeekly.date ≤ toEpochDay ⟨2024, 3, 1⟩ →
      (rsWeekly.map (fun pr => pr.1.date)).head? = some avWeekly.date) ∧
    rruleDates .weekly ⟨2024, 2, 15⟩ ⟨2024, 3, 1⟩ =
      [⟨2024, 2, 15⟩, ⟨2024, 2, 22⟩, ⟨2024, 2, 29⟩] :=
  claim_C4 fixedCtx avWeekly .weekly ⟨2024, 3, 1⟩ rsWeekly rfl rfl rfl
    (by decide) (by decide) rfl


end HF
